import Mathlib

/-!
Log demultiplexing and screenshot pipeline of `nanikjava/miscprojects`.

A shallow embedding of `src/dockerclient/main.go` (`ContainerLog`, `CreateNewContainer`,
`main`) and of `src/main.go` (`CreateNewContainer`, `main`).

* `ContainerLog` is a loop over an `io.Reader`.  The reader is external, so it is a
  parameter: a state machine that, given the length of the buffer handed to `Read`,
  returns the bytes it delivers, whether it reports an error, and its next state.
  The loop has no bound in the source, so the embedding carries fuel and reports
  whether the loop has left through its `break`.
* `main` is a straight line of calls to external services.  Their outcomes are a
  parameter (`Env`), and `main` returns the trace of calls it makes.
-/

namespace Dockerclient

/-- One byte of a Go `[]byte` or `string`. -/
abbrev Byte := Fin 256

/-- What one call `Read(p)` gives back: the bytes written to the front of `p`
(`n` is their number), whether `err != nil`, and the reader afterwards. -/
structure ReadResult (σ : Type) where
  data : List Byte
  err : Bool
  next : σ

/-- An `io.Reader` as a state machine: state and `len(p)` to the result of `Read(p)`. -/
abbrev Reader (σ : Type) := σ → Nat → ReadResult σ

/-- The buffer `p` after `Read(p)` delivered `data`: the first `n` bytes are overwritten,
the others keep their value.  At most `len(p)` bytes are taken. -/
def fill (buf data : List Byte) : List Byte :=
  data.take buf.length ++ buf.drop data.length

/-- Go `binary.BigEndian.Uint32(b)`:
`uint32(b[3]) | uint32(b[2])<<8 | uint32(b[1])<<16 | uint32(b[0])<<24`. -/
def bigEndianUint32 (b : List Byte) : Nat :=
  (b.getD 3 0).val ||| ((b.getD 2 0).val <<< 8) ||| ((b.getD 1 0).val <<< 16)
    ||| ((b.getD 0 0).val <<< 24)

/-- What `ContainerLog` does, in order. -/
inductive Event where
  /-- the call `i.Read(header)` returned `n` and `err` -/
  | readHeader (n : Nat) (err : Bool)
  /-- the call `i.Read(dat)` returned `n` and `err` -/
  | readData (n : Nat) (err : Bool)
  /-- the call `handler(string(dat))`, with the header buffer as it is at that call -/
  | handler (header dat : List Byte)
  deriving DecidableEq, Repr

/-- Outcome of running the loop of `ContainerLog`. -/
structure LogResult (σ η : Type) where
  /-- what happened, in order -/
  events : List Event
  /-- the loop was left through `break` (otherwise the fuel ran out first) -/
  done : Bool
  /-- the reader afterwards -/
  rd : σ
  /-- the handler's own state afterwards -/
  hs : η

/-- The `for` loop of `ContainerLog` (lines 88-102).  `header` is the 8-byte buffer
allocated once before the loop; `dat` is allocated afresh (zeroed) in every round.
The count returned by both reads, the error of the second read and the boolean
returned by the handler are discarded, as in the source. -/
def ContainerLogLoop {σ η : Type} (read : Reader σ) (handler : η → List Byte → η × Bool) :
    Nat → σ → List Byte → η → LogResult σ η
  | 0, s, _, e => { events := [], done := false, rd := s, hs := e }
  | fuel + 1, s, header, e =>
    let r := read s header.length
    let header := fill header r.data
    let n := min r.data.length header.length
    if r.err then
      { events := [Event.readHeader n true], done := true, rd := r.next, hs := e }
    else
      let count := bigEndianUint32 (header.drop 4)
      let dat := List.replicate count (0 : Byte)
      let r2 := read r.next dat.length
      let dat := fill dat r2.data
      let e2 := (handler e dat).1
      let rest := ContainerLogLoop read handler fuel r2.next header e2
      { rest with
        events := Event.readHeader n false :: Event.readData (min r2.data.length count) r2.err
          :: Event.handler header dat :: rest.events }

/-- The function `ContainerLog` from the point where the log stream `i` is open: the header buffer is
`make([]byte, 8)`. -/
def ContainerLog {σ η : Type} (read : Reader σ) (handler : η → List Byte → η × Bool)
    (fuel : Nat) (s : σ) (e : η) : LogResult σ η :=
  ContainerLogLoop read handler fuel s (List.replicate 8 0) e

/-- The strings passed to the handler, in order. -/
def strings : List Event → List (List Byte)
  | [] => []
  | Event.handler _ dat :: es => dat :: strings es
  | _ :: es => strings es

/-! ### Readers over a finite byte stream -/

/-- State of a reader over a finite byte stream: the bytes not yet delivered, and for
each coming `Read` call the most bytes it is willing to deliver (when the list is used
up, a `Read` delivers as much as the buffer takes). -/
structure ChunkedStream where
  rest : List Byte
  sizes : List Nat
  deriving DecidableEq, Repr

/-- A reader that never errs before the end of its stream: a `Read` into an empty buffer
returns `0, nil`; at the end of the stream it returns `0, io.EOF`; otherwise it delivers
between 1 and `len(p)` bytes, as many as the current entry of `sizes` allows. -/
def chunkedRead : Reader ChunkedStream := fun s k =>
  if k = 0 then { data := [], err := false, next := { s with sizes := s.sizes.tail } }
  else if s.rest = [] then { data := [], err := true, next := { s with sizes := s.sizes.tail } }
  else
    let lim := match s.sizes with
      | [] => k
      | m :: _ => min (max m 1) k
    { data := s.rest.take lim, err := false,
      next := { rest := s.rest.drop lim, sizes := s.sizes.tail } }

/-- The bytes of the mark "|-| " that the handler of `CreateNewContainer` prints in
front of every line. -/
def mark : List Byte := [124, 45, 124, 32]

/-- The handler of `CreateNewContainer` (lines 62-66): `fmt.Print("|-| " + line)`, then
`return true`.  Its state is the list of the strings printed so far. -/
def printHandler (out : List (List Byte)) (line : List Byte) : List (List Byte) × Bool :=
  (out ++ [mark ++ line], true)

/-- One frame of the multiplexed log stream. -/
structure Frame where
  kind : Byte
  r1 : Byte
  r2 : Byte
  r3 : Byte
  payload : List Byte
  deriving DecidableEq, Repr

/-- The four bytes of `n` in big-endian order. -/
def putUint32 (n : Nat) : List Byte :=
  [Fin.ofNat (n / 2 ^ 24), Fin.ofNat (n / 2 ^ 16), Fin.ofNat (n / 2 ^ 8), Fin.ofNat n]

/-- The 8-byte header of a frame. -/
def Frame.header (f : Frame) : List Byte :=
  [f.kind, f.r1, f.r2, f.r3] ++ putUint32 f.payload.length

/-- The bytes of a frame on the wire. -/
def Frame.encode (f : Frame) : List Byte := f.header ++ f.payload

/-- The bytes of a list of frames on the wire. -/
def encodeAll : List Frame → List Byte
  | [] => []
  | f :: fs => f.encode ++ encodeAll fs

end Dockerclient

/-! ## The two `main` functions -/

namespace Pipeline

/-- A target of the devtools endpoint; only its connection URL is used. -/
structure Target where
  webSocketDebuggerURL : String
  deriving DecidableEq, Repr

/-- Why a request to the devtools endpoint failed. -/
inductive DevtError where
  | unreachable
  | noTarget
  | other (msg : String)
  deriving DecidableEq, Repr

/-- The outcomes of the external operations a run meets.  Every operation is called at
most once in a run, so one outcome for each is enough. -/
structure Env where
  /-- whether `client.NewClientWithOpts` succeeds -/
  newClient : Bool
  /-- outcome of `cli.ContainerCreate`: the id of the container, or failure -/
  containerCreate : Option String
  /-- whether `cli.ContainerStart` succeeds -/
  containerStart : Bool
  /-- whether `cli.ContainerLogs` succeeds (called by `CreateNewContainer` in
  `src/main.go`, by the goroutine of `ContainerLog` in `src/dockerclient/main.go`) -/
  containerLogs : Bool
  /-- outcome of `devt.Get(ctx, devtool.Page)` -/
  get : Except DevtError Target
  /-- outcome of `devt.Create(ctx)` -/
  create : Except DevtError Target
  /-- whether `rpcc.DialContext` succeeds -/
  dial : Bool
  /-- whether `c.Page.Enable` succeeds -/
  enable : Bool
  /-- whether `c.Page.DOMContentEventFired` succeeds -/
  subscribe : Bool
  /-- whether `c.Page.Navigate` succeeds -/
  navigate : Bool
  /-- whether `domContentEventFired.Recv` succeeds -/
  recv : Bool
  /-- whether `c.Runtime.Evaluate` succeeds -/
  evaluate : Bool
  /-- whether `c.Page.CaptureScreenshot` succeeds -/
  capture : Bool
  /-- whether `ioutil.WriteFile` succeeds -/
  writeFile : Bool
  /-- whether `cli.ContainerStop` succeeds -/
  stop : Bool
  /-- whether `cli.ContainerRemove` succeeds -/
  remove : Bool

/-- A call to an external operation, with its arguments and whether it succeeded; the
last three constructors are the ends of a run that are not a return from `main`. -/
inductive Call where
  | newClient (ok : Bool)
  | containerCreate (image name : String) (ok : Bool)
  | containerStart (id : String) (ok : Bool)
  | containerLogs (container : String) (ok : Bool)
  /-- the `go` statement that starts reading the log stream -/
  | goLogs
  | sleep (seconds : Nat)
  | devtGet (ok : Bool)
  | devtCreate (ok : Bool)
  | dial (url : String) (ok : Bool)
  | pageEnable (ok : Bool)
  | domContentEventFired (ok : Bool)
  | navigate (url : String) (ok : Bool)
  | recv (ok : Bool)
  | evaluate (expression : String) (ok : Bool)
  | captureScreenshot (format : String) (quality : Nat) (ok : Bool)
  | writeFile (name : String) (ok : Bool)
  | containerStop (id : String) (ok : Bool)
  | containerRemove (id : String) (force : Bool) (ok : Bool)
  /-- deferred `domContentEventFired.Close()` -/
  | eventClose
  /-- deferred `conn.Close()` -/
  | connClose
  /-- deferred `cli.Close()` -/
  | cliClose
  /-- the call `log.Fatal`: the process exits at once, deferred calls do not run -/
  | logFatal
  /-- a `panic`: deferred calls run, then the process ends -/
  | goPanic
  deriving DecidableEq, Repr

/-- The pattern `err := op(...); if err != nil { log.Fatal(err) }` followed by `k`. -/
def orFatal (c : Bool → Call) (ok : Bool) (k : List Call) : List Call :=
  if ok then c true :: k else [c false, Call.logFatal]

/-- Lines 126-141 of `src/dockerclient/main.go` and 103-118 of `src/main.go`: get the
page target, on any error create one, then dial the target; `k` is what follows a
successful dial. -/
def readiness (env : Env) (k : List Call) : List Call :=
  match env.get with
  | .ok p => Call.devtGet true :: orFatal (Call.dial p.webSocketDebuggerURL) env.dial k
  | .error _ =>
    Call.devtGet false ::
      match env.create with
      | .ok p => Call.devtCreate true :: orFatal (Call.dial p.webSocketDebuggerURL) env.dial k
      | .error _ => [Call.devtCreate false, Call.logFatal]

/-- From `c.Page.Enable` to `ioutil.WriteFile` (the same statements in both files); `k`
is what follows a successful write. -/
def drive (env : Env) (k : List Call) : List Call :=
  orFatal Call.pageEnable env.enable <|
  orFatal Call.domContentEventFired env.subscribe <|
  orFatal (Call.navigate "https://golang.org") env.navigate <|
  orFatal Call.recv env.recv <|
  orFatal (Call.evaluate "document.header") env.evaluate <|
  orFatal (Call.captureScreenshot "jpeg" 80) env.capture <|
  orFatal (Call.writeFile "screenshot.jpg") env.writeFile k

end Pipeline

namespace Dockerclient
open Pipeline

/-- The function `CreateNewContainer` of `src/dockerclient/main.go`: the calls it makes and the id it
returns (`none` when it panics).  `nat.NewPort("tcp", "9222")` cannot fail. -/
def CreateNewContainer (env : Env) (image : String) : List Call × Option String :=
  match env.containerCreate with
  | none => ([Call.containerCreate image "chromium" false, Call.goPanic], none)
  | some id =>
    if env.containerStart then
      ([Call.containerCreate image "chromium" true, Call.containerStart id true, Call.goLogs],
        some id)
    else
      ([Call.containerCreate image "chromium" true, Call.containerStart id false,
        Call.goPanic], none)

/-- The function `main` of `src/dockerclient/main.go`: the trace of its calls.
`defer cli.Close()` is registered before the error of `NewClientWithOpts` is looked at,
so it runs on the panics and on the return, not on `log.Fatal`.

The goroutine started in `CreateNewContainer` (line 62) opens the log stream with
`cli.ContainerLogs` and, when that fails, ends the whole process with `log.Fatal`
(lines 74-82).  `main` sleeps two seconds before its next call, so that exit is placed
right after `CreateNewContainer` returns.  The calls of the goroutine themselves are not
part of the trace of `main`. -/
def main (env : Env) : List Call :=
  if env.newClient then
    Call.newClient true ::
      match CreateNewContainer env "justinribeiro/chrome-headless:latest" with
      | (t, none) => t ++ [Call.cliClose]
      | (t, some ctrid) =>
        if env.containerLogs then
          t ++ Call.sleep 2 ::
            (readiness env <| drive env <|
              orFatal (Call.containerRemove ctrid true) env.remove
                [Call.eventClose, Call.connClose, Call.cliClose])
        else
          t ++ [Call.logFatal]
  else
    [Call.newClient false, Call.goPanic, Call.cliClose]

end Dockerclient

namespace Main
open Pipeline

/-- The function `CreateNewContainer` of `src/main.go`: as above, and it opens the log stream itself
(by container name) before starting the goroutine that prints it. -/
def CreateNewContainer (env : Env) (image : String) : List Call × Option String :=
  match env.containerCreate with
  | none => ([Call.containerCreate image "chromium" false, Call.goPanic], none)
  | some id =>
    if env.containerStart then
      if env.containerLogs then
        ([Call.containerCreate image "chromium" true, Call.containerStart id true,
          Call.containerLogs "chromium" true, Call.goLogs], some id)
      else
        ([Call.containerCreate image "chromium" true, Call.containerStart id true,
          Call.containerLogs "chromium" false, Call.goPanic], none)
    else
      ([Call.containerCreate image "chromium" true, Call.containerStart id false,
        Call.goPanic], none)

/-- The function `main` of `src/main.go`: the trace of its calls. -/
def main (env : Env) : List Call :=
  if env.newClient then
    Call.newClient true ::
      match CreateNewContainer env "justinribeiro/chrome-headless:latest" with
      | (t, none) => t
      | (t, some ctrid) =>
        t ++ Call.sleep 2 ::
          (readiness env <| drive env <|
            orFatal (Call.containerStop ctrid) env.stop <|
            orFatal (Call.containerRemove ctrid true) env.remove
              [Call.eventClose, Call.connClose])
  else
    [Call.newClient false, Call.goPanic]

end Main

namespace Pipeline

/-- An environment in which every operation succeeds. -/
def allOk (id : String) (p : Target) : Env :=
  { newClient := true, containerCreate := some id, containerStart := true,
    containerLogs := true, get := .ok p, create := .ok p, dial := true, enable := true,
    subscribe := true, navigate := true, recv := true, evaluate := true, capture := true,
    writeFile := true, stop := true, remove := true }

end Pipeline



/-! ## Notions the statements use -/

namespace Dockerclient

/-- The schedule of chunk sizes lets every `Read` of the loop fill its buffer on a stream
made of these frames: the entry met by a header read is at least 8, the entry met by a
payload read is at least the length of the payload. -/
def Whole : List Frame → List Nat → Prop
  | [], _ => True
  | f :: fs, sizes =>
    (∀ m, sizes.head? = some m → 8 ≤ m)
      ∧ (∀ m, sizes.tail.head? = some m → f.payload.length ≤ m)
      ∧ Whole fs sizes.tail.tail

/-- An event is a header read that returned an error. -/
def isHeaderErr : Event → Bool
  | Event.readHeader _ true => true
  | _ => false

/-- An event is a header read that returned no error. -/
def isHeaderOk : Event → Bool
  | Event.readHeader _ false => true
  | _ => false

/-- An event is a call of the handler. -/
def isHandler : Event → Bool
  | Event.handler _ _ => true
  | _ => false

/-- What `ContainerLog` does on a run of frames that every `Read` delivers whole. -/
def frameEvents : List Frame → List Event
  | [] => []
  | f :: fs =>
    Event.readHeader 8 false :: Event.readData f.payload.length false
      :: Event.handler f.header f.payload :: frameEvents fs

/-- The header buffer after a run of frames read whole, from the buffer `hdr`. -/
def lastHeader (hdr : List Byte) : List Frame → List Byte
  | [] => hdr
  | f :: fs => lastHeader f.header fs

/-- The handler's state after it was called with the payloads of the frames in order. -/
def handlerState {η : Type} (handler : η → List Byte → η × Bool) (e : η) : List Frame → η
  | [] => e
  | f :: fs => handlerState handler (handler e f.payload).1 fs

/-- The payloads of the frames wholly present at the front of a stream, as the wire
format defines them (8-byte header, length in bytes 4..7, then the payload); `fuel`
bounds the number of frames. -/
def wholeFrames : Nat → List Byte → List (List Byte)
  | 0, _ => []
  | fuel + 1, bs =>
    if bs.length < 8 then []
    else if (bs.drop 8).length < bigEndianUint32 ((bs.take 8).drop 4) then []
    else (bs.drop 8).take (bigEndianUint32 ((bs.take 8).drop 4))
      :: wholeFrames fuel (bs.drop (8 + bigEndianUint32 ((bs.take 8).drop 4)))

/-- A handler that prints like `printHandler` and returns `false`. -/
def refusingHandler (out : List (List Byte)) (line : List Byte) : List (List Byte) × Bool :=
  (out ++ [mark ++ line], false)

/-- The reader and the header buffer after one round of the loop of `ContainerLog` in
which the header read returned no error (lines 89-98): the header read, then the
payload read into a buffer of the length found in bytes 4..7.  The handler has no part
in it. -/
def nextRound {σ : Type} (read : Reader σ) (st : σ × List Byte) : σ × List Byte :=
  ((read (read st.1 st.2.length).next
      (bigEndianUint32 ((fill st.2 (read st.1 st.2.length).data).drop 4))).next,
    fill st.2 (read st.1 st.2.length).data)

/-- Whether the header read of the round that starts in this state returns an error
(line 89). -/
def headerErr {σ : Type} (read : Reader σ) (st : σ × List Byte) : Bool :=
  (read st.1 st.2.length).err

/-- The stdout frame carrying "hello". -/
def helloFrame : Frame := ⟨1, 0, 0, 0, [104, 101, 108, 108, 111]⟩

/-- A frame with an empty payload. -/
def emptyFrame (kind : Byte) : Frame := ⟨kind, 0, 0, 0, []⟩

/-- A stream of one frame carrying "hi", delivered one byte per `Read`. -/
def hiByByte : ChunkedStream :=
  ⟨encodeAll [⟨1, 0, 0, 0, [104, 105]⟩], List.replicate 30 1⟩

/-- A stream that ends two bytes into a payload declared five bytes long. -/
def cutInPayload : ChunkedStream := ⟨[1, 0, 0, 0, 0, 0, 0, 5, 104, 101], []⟩

/-- A stream that ends three bytes into the header that follows the "hello" frame. -/
def cutInHeader : ChunkedStream := ⟨helloFrame.encode ++ [1, 0, 0], []⟩

/-- Two empty frames, the second of the given kind, read with a first `Read` that
delivers one byte, a whole second header read, and a following payload read that
delivers one byte. -/
def twoEmpty (kind : Byte) : ChunkedStream :=
  ⟨encodeAll [emptyFrame 1, emptyFrame kind], [1, 1, 8, 1]⟩

/-- The reads of a run, with what they returned: the events that are not handler calls. -/
def reads (events : List Event) : List Event :=
  events.filter fun ev => !isHandler ev

/-- A stream whose payload of five bytes arrives in two reads. -/
def shortPayload : ChunkedStream := ⟨helloFrame.encode, [8, 2]⟩

end Dockerclient

namespace Pipeline

/-- Everything succeeds: the container gets the id `id`, and `devt.Get` returns `p`. -/
def Env.AllSucceed (env : Env) (id : String) (p : Target) : Prop :=
  env.newClient = true ∧ env.containerCreate = some id ∧ env.containerStart = true
    ∧ env.containerLogs = true ∧ env.get = .ok p ∧ env.dial = true ∧ env.enable = true
    ∧ env.subscribe = true ∧ env.navigate = true ∧ env.recv = true ∧ env.evaluate = true
    ∧ env.capture = true ∧ env.writeFile = true ∧ env.stop = true ∧ env.remove = true

/-- A target was obtained: `Get` succeeded, or it failed and `Create` succeeded. -/
def Env.targetOk (env : Env) : Bool :=
  match env.get with
  | .ok _ => true
  | .error _ =>
    match env.create with
    | .ok _ => true
    | .error _ => false

/-- Every step from `Page.Enable` to the file write succeeds. -/
def Env.driveOk (env : Env) : Bool :=
  env.enable && env.subscribe && env.navigate && env.recv && env.evaluate && env.capture
    && env.writeFile

/-- The calls of the remote debugging protocol. -/
def isProtocol : Call → Bool
  | Call.pageEnable _ => true
  | Call.domContentEventFired _ => true
  | Call.navigate _ _ => true
  | Call.recv _ => true
  | Call.evaluate _ _ => true
  | Call.captureScreenshot _ _ _ => true
  | _ => false

/-- The calls made between a successful dial and the removal of the container. -/
def isDriveCall : Call → Bool
  | Call.writeFile _ _ => true
  | c => isProtocol c

/-- The calls that release something. -/
def isTeardown : Call → Bool
  | Call.containerStop _ _ => true
  | Call.containerRemove _ _ _ => true
  | Call.eventClose => true
  | Call.connClose => true
  | Call.cliClose => true
  | _ => false

/-- A call of `devt.Get`. -/
def isDevtGet : Call → Bool
  | Call.devtGet _ => true
  | _ => false

/-- A call of `devt.Create`. -/
def isDevtCreate : Call → Bool
  | Call.devtCreate _ => true
  | _ => false

/-- A call of `rpcc.DialContext`. -/
def isDial : Call → Bool
  | Call.dial _ _ => true
  | _ => false

/-- Scan of a trace: no `Page.Navigate` is met before a successful `Page.Enable` and a
successful subscription; `en` and `sub` say whether these have been met already. -/
def navigateGuarded : Bool → Bool → List Call → Bool
  | _, _, [] => true
  | en, sub, Call.navigate _ _ :: rest => en && sub && navigateGuarded en sub rest
  | _, sub, Call.pageEnable true :: rest => navigateGuarded true sub rest
  | en, _, Call.domContentEventFired true :: rest => navigateGuarded en true rest
  | en, sub, _ :: rest => navigateGuarded en sub rest

/-- What follows a successful file write in `src/dockerclient/main.go`: the removal of
the container, then the deferred calls. -/
def dockerclientFinish (env : Env) (ctrid : String) : List Call :=
  orFatal (Call.containerRemove ctrid true) env.remove
    [Call.eventClose, Call.connClose, Call.cliClose]

/-- What follows a successful file write in `src/main.go`: the stop and the removal of
the container, then the deferred calls. -/
def mainFinish (env : Env) (ctrid : String) : List Call :=
  orFatal (Call.containerStop ctrid) env.stop <|
    orFatal (Call.containerRemove ctrid true) env.remove [Call.eventClose, Call.connClose]

/-- An environment that differs from `allOk` in that the dial fails. -/
def dialFails : Env := { allOk "c1" ⟨"ws://page"⟩ with dial := false }

/-- An environment that differs from `allOk` in that `cli.ContainerLogs` fails. -/
def logsFail : Env := { allOk "c1" ⟨"ws://page"⟩ with containerLogs := false }

/-- An environment in which `Get` finds no target and `Create` succeeds. -/
def getFails : Env :=
  { allOk "c1" ⟨"ws://page"⟩ with get := .error .noTarget, create := .ok ⟨"ws://new"⟩ }

end Pipeline
/-! ## Lemmas on buffers and on the length field -/

namespace Dockerclient

theorem fill_length (buf data : List Byte) : (fill buf data).length = buf.length := by
  simp only [fill, List.length_append, List.length_take, List.length_drop]
  omega

theorem fill_of_length_eq (buf data : List Byte) (h : data.length = buf.length) :
    fill buf data = data := by
  simp [fill, ← h]

theorem fill_replicate (n : Nat) (data : List Byte) (h : data.length ≤ n) :
    fill (List.replicate n 0) data = data ++ List.replicate (n - data.length) 0 := by
  simp [fill, List.take_of_length_le h]

theorem bigEndianUint32_four (a b c d : Byte) :
    bigEndianUint32 [a, b, c, d] = a.val * 2 ^ 24 + b.val * 2 ^ 16 + c.val * 2 ^ 8 + d.val := by
  have ha := a.isLt
  have hb := b.isLt
  have hc := c.isLt
  have hd := d.isLt
  have h1 := Nat.mul_add_lt_is_or (i := 8) (b := d.val) (by omega) c.val
  have h2 := Nat.mul_add_lt_is_or (i := 16) (b := 2 ^ 8 * c.val + d.val) (by omega) b.val
  have h3 := Nat.mul_add_lt_is_or (i := 24)
    (b := 2 ^ 16 * b.val + (2 ^ 8 * c.val + d.val)) (by omega) a.val
  have e1 : d.val ||| c.val * 2 ^ 8 = 2 ^ 8 * c.val + d.val := by
    rw [Nat.lor_comm, Nat.mul_comm, h1]
  have e2 : (2 ^ 8 * c.val + d.val) ||| b.val * 2 ^ 16
      = 2 ^ 16 * b.val + (2 ^ 8 * c.val + d.val) := by
    rw [Nat.lor_comm, Nat.mul_comm, h2]
  have e3 : (2 ^ 16 * b.val + (2 ^ 8 * c.val + d.val)) ||| a.val * 2 ^ 24
      = 2 ^ 24 * a.val + (2 ^ 16 * b.val + (2 ^ 8 * c.val + d.val)) := by
    rw [Nat.lor_comm, Nat.mul_comm, h3]
  simp only [bigEndianUint32, List.getD_cons_zero, List.getD_cons_succ, Nat.shiftLeft_eq]
  rw [e1, e2, e3]
  omega

theorem bigEndianUint32_putUint32 (n : Nat) (h : n < 2 ^ 32) :
    bigEndianUint32 (putUint32 n) = n := by
  rw [putUint32, bigEndianUint32_four]
  simp only [Fin.ofNat, Nat.reducePow, Nat.reduceAdd] at *
  omega

/-! ## The reader over a finite stream -/

theorem chunkedRead_exact (pre tl : List Byte) (sizes : List Nat)
    (h : ∀ m, sizes.head? = some m → pre.length ≤ m) :
    chunkedRead ⟨pre ++ tl, sizes⟩ pre.length = ⟨pre, false, ⟨tl, sizes.tail⟩⟩ := by
  unfold chunkedRead
  by_cases hk : pre.length = 0
  · have hp : pre = [] := List.length_eq_zero.mp hk
    subst hp
    simp
  · have hne : pre ++ tl ≠ [] := by
      intro hc
      apply hk
      rw [List.append_eq_nil] at hc
      rw [hc.1]
      rfl
    rw [if_neg hk, if_neg hne]
    cases sizes with
    | nil => simp
    | cons m ms =>
      have hm := h m rfl
      have hl : min (max m 1) pre.length = pre.length := by omega
      simp [hl]

theorem chunkedRead_eof (sizes : List Nat) (k : Nat) (hk : k ≠ 0) :
    chunkedRead ⟨[], sizes⟩ k = ⟨[], true, ⟨[], sizes.tail⟩⟩ := by
  simp [chunkedRead, hk]

theorem chunkedRead_zero (s : ChunkedStream) :
    chunkedRead s 0 = ⟨[], false, ⟨s.rest, s.sizes.tail⟩⟩ := by
  simp [chunkedRead]

theorem Frame.header_length (f : Frame) : f.header.length = 8 := rfl

theorem Frame.count_header (f : Frame) (h : f.payload.length < 2 ^ 32) :
    bigEndianUint32 (f.header.drop 4) = f.payload.length := by
  simpa [Frame.header] using bigEndianUint32_putUint32 f.payload.length h

/-! ## The loop on a run of whole frames -/

/-- The loop on a stream that starts with whole frames, each delivered by one read for
its header and one for its payload: it hands the payloads to the handler in order and
goes on with what follows the frames. -/
theorem ContainerLogLoop_frames {η : Type} (handler : η → List Byte → η × Bool)
    (frames : List Frame) :
    ∀ (fuel : Nat) (sizes : List Nat) (tl hdr : List Byte) (e : η),
      hdr.length = 8 →
      (∀ f ∈ frames, f.payload.length < 2 ^ 32) →
      Whole frames sizes →
      ContainerLogLoop chunkedRead handler (frames.length + fuel)
          ⟨encodeAll frames ++ tl, sizes⟩ hdr e =
        { ContainerLogLoop chunkedRead handler fuel ⟨tl, sizes.drop (2 * frames.length)⟩
            (lastHeader hdr frames) (handlerState handler e frames) with
          events := frameEvents frames ++
            (ContainerLogLoop chunkedRead handler fuel ⟨tl, sizes.drop (2 * frames.length)⟩
              (lastHeader hdr frames) (handlerState handler e frames)).events } := by
  induction frames with
  | nil =>
    intro fuel sizes tl hdr e _ _ _
    simp [encodeAll, frameEvents, lastHeader, handlerState]
  | cons f fs ih =>
    intro fuel sizes tl hdr e hh hlen hamp
    have hf := hlen f (List.mem_cons_self _ _)
    have hcount := Frame.count_header f hf
    have hr1 : chunkedRead ⟨encodeAll (f :: fs) ++ tl, sizes⟩ hdr.length
        = ⟨f.header, false, ⟨f.payload ++ (encodeAll fs ++ tl), sizes.tail⟩⟩ := by
      have := chunkedRead_exact f.header (f.payload ++ (encodeAll fs ++ tl)) sizes (by
        intro m hm
        rw [Frame.header_length]
        exact hamp.1 m hm)
      rw [hh, ← Frame.header_length f]
      simpa [encodeAll, Frame.encode, List.append_assoc] using this
    have hfill : fill hdr f.header = f.header :=
      fill_of_length_eq hdr f.header (by rw [hh]; rfl)
    have hr2 : chunkedRead ⟨f.payload ++ (encodeAll fs ++ tl), sizes.tail⟩ f.payload.length
        = ⟨f.payload, false, ⟨encodeAll fs ++ tl, sizes.tail.tail⟩⟩ := by
      apply chunkedRead_exact
      exact hamp.2.1
    have hfill2 : fill (List.replicate f.payload.length 0) f.payload = f.payload :=
      fill_of_length_eq _ _ (by simp)
    have hih := ih fuel sizes.tail.tail tl f.header (handler e f.payload).1 rfl
      (fun g hg => hlen g (List.mem_cons_of_mem _ hg)) hamp.2.2
    have hdrop : List.drop (2 * (f :: fs).length) sizes = List.drop (2 * fs.length) sizes.tail.tail := by
      rw [List.length_cons, Nat.mul_succ]
      cases sizes with
      | nil => simp
      | cons a as =>
        cases as with
        | nil => simp
        | cons b bs => simp
    have hfuel : (f :: fs).length + fuel = (fs.length + fuel) + 1 := by
      simp only [List.length_cons]; omega
    rw [hfuel, hdrop]
    simp only [ContainerLogLoop, hr1, hfill, hcount, List.length_replicate, hr2, hfill2,
      Bool.false_eq_true, if_false, hih, frameEvents, lastHeader, handlerState,
      Frame.header_length, List.cons_append, Nat.min_self]

theorem ContainerLogLoop_eof {η : Type} (handler : η → List Byte → η × Bool) (fuel : Nat)
    (sizes : List Nat) (hdr : List Byte) (e : η) (hh : hdr.length = 8) :
    ContainerLogLoop chunkedRead handler (fuel + 1) ⟨[], sizes⟩ hdr e =
      { events := [Event.readHeader 0 true], done := true, rd := ⟨[], sizes.tail⟩, hs := e } := by
  simp [ContainerLogLoop, hh, chunkedRead_eof]

theorem encodeAll_append (fs gs : List Frame) :
    encodeAll (fs ++ gs) = encodeAll fs ++ encodeAll gs := by
  induction fs with
  | nil => rfl
  | cons f fs ih => simp [encodeAll, ih]

theorem strings_append (xs ys : List Event) : strings (xs ++ ys) = strings xs ++ strings ys := by
  induction xs with
  | nil => rfl
  | cons x xs ih => cases x <;> simp [strings, ih]

theorem strings_frameEvents (fs : List Frame) :
    strings (frameEvents fs) = fs.map Frame.payload := by
  induction fs with
  | nil => rfl
  | cons f fs ih => simp [frameEvents, strings, ih]

/-- Once the loop has left through `break`, more fuel changes nothing. -/
theorem ContainerLogLoop_done_stable {σ η : Type} (read : Reader σ)
    (handler : η → List Byte → η × Bool) (k : Nat) :
    ∀ (fuel : Nat) (s : σ) (hdr : List Byte) (e : η),
      (ContainerLogLoop read handler fuel s hdr e).done = true →
      ContainerLogLoop read handler (fuel + k) s hdr e
        = ContainerLogLoop read handler fuel s hdr e := by
  intro fuel
  induction fuel with
  | zero => intro s hdr e h; simp [ContainerLogLoop] at h
  | succ n ih =>
    intro s hdr e h
    have hn : n + 1 + k = (n + k) + 1 := by omega
    rw [hn]
    simp only [ContainerLogLoop] at h ⊢
    split
    · rfl
    · rename_i herr
      rw [if_neg herr] at h
      rw [ih _ _ _ h]

theorem lastHeader_length (frames : List Frame) :
    ∀ hdr : List Byte, hdr.length = 8 → (lastHeader hdr frames).length = 8 := by
  induction frames with
  | nil => intro hdr h; exact h
  | cons f fs ih => intro hdr _; exact ih f.header rfl

theorem Whole_take (frames : List Frame) :
    ∀ (n : Nat) (sizes : List Nat), Whole frames sizes → Whole (frames.take n) sizes := by
  induction frames with
  | nil => intro n sizes h; simpa using h
  | cons f fs ih =>
    intro n sizes h
    cases n with
    | zero => simp [Whole]
    | succ n => exact ⟨h.1, h.2.1, ih n _ h.2.2⟩

theorem Whole_nil (frames : List Frame) : Whole frames [] := by
  induction frames with
  | nil => trivial
  | cons f fs ih => exact ⟨by simp, by simp, ih⟩

/-- The loop on a stream of whole frames read whole, for any fuel: one round per frame
while the fuel lasts. -/
theorem ContainerLog_frames_any_fuel {η : Type} (handler : η → List Byte → η × Bool)
    (frames : List Frame) (fuel : Nat) (sizes : List Nat) (e : η)
    (hlen : ∀ f ∈ frames, f.payload.length < 2 ^ 32)
    (hamp : Whole frames sizes) :
    (ContainerLog chunkedRead handler fuel ⟨encodeAll frames, sizes⟩ e).events
        = frameEvents (frames.take fuel)
          ++ (if frames.length < fuel then [Event.readHeader 0 true] else [])
      ∧ (ContainerLog chunkedRead handler fuel ⟨encodeAll frames, sizes⟩ e).done
        = decide (frames.length < fuel)
      ∧ (ContainerLog chunkedRead handler fuel ⟨encodeAll frames, sizes⟩ e).hs
        = handlerState handler e (frames.take fuel) := by
  unfold ContainerLog
  by_cases hf : frames.length < fuel
  · obtain ⟨k, rfl⟩ : ∃ k, fuel = frames.length + (k + 1) := ⟨fuel - frames.length - 1, by omega⟩
    have h := ContainerLogLoop_frames handler frames (k + 1) sizes [] (List.replicate 8 0) e
      (by simp) hlen hamp
    rw [List.append_nil] at h
    have hl := lastHeader_length frames (List.replicate 8 0) (by simp)
    rw [h, ContainerLogLoop_eof _ _ _ _ _ hl]
    simp [hf, List.take_of_length_le]
  · have hle : fuel ≤ frames.length := by omega
    have hsplit : frames = frames.take fuel ++ frames.drop fuel := (List.take_append_drop _ _).symm
    have h := ContainerLogLoop_frames handler (frames.take fuel) 0 sizes
      (encodeAll (frames.drop fuel)) (List.replicate 8 0) e (by simp)
      (fun f hfm => hlen f (List.mem_of_mem_take hfm)) (Whole_take frames fuel sizes hamp)
    rw [← encodeAll_append, ← hsplit] at h
    have hl : (frames.take fuel).length + 0 = fuel := by simp [hle]
    rw [hl] at h
    rw [h]
    simp [ContainerLogLoop, hf]

/-- Every string handed to the handler by the loop is as long as the length field of the
header buffer says, whatever the reader does. -/
theorem ContainerLogLoop_string_length {σ η : Type} (read : Reader σ)
    (handler : η → List Byte → η × Bool) (hdr dat : List Byte) :
    ∀ (fuel : Nat) (s : σ) (header : List Byte) (e : η),
      Event.handler hdr dat ∈ (ContainerLogLoop read handler fuel s header e).events →
      dat.length = bigEndianUint32 (hdr.drop 4) ∧ hdr.length = header.length := by
  intro fuel
  induction fuel with
  | zero => intro s header e h; simp [ContainerLogLoop] at h
  | succ n ih =>
    intro s header e h
    simp only [ContainerLogLoop] at h
    split at h
    · simp at h
    · simp only [List.mem_cons, reduceCtorEq, false_or, Event.handler.injEq] at h
      rcases h with ⟨h1, h2⟩ | h
      · subst h1 h2
        simp [fill_length]
      · have := ih _ _ _ h
        rw [fill_length] at this
        exact this

/-- How the loop ends: a header read that returned an error is the last event and the
only one of its kind, it is there exactly when the loop has been left, and the handler
has been called once for every header read that returned no error. -/
theorem ContainerLogLoop_stop {σ η : Type} (read : Reader σ)
    (handler : η → List Byte → η × Bool) :
    ∀ (fuel : Nat) (s : σ) (header : List Byte) (e : η),
      (ContainerLogLoop read handler fuel s header e).events.countP isHeaderErr
          = (if (ContainerLogLoop read handler fuel s header e).done then 1 else 0)
        ∧ ((ContainerLogLoop read handler fuel s header e).done = true →
            ∃ n, (ContainerLogLoop read handler fuel s header e).events.getLast?
              = some (Event.readHeader n true))
        ∧ (ContainerLogLoop read handler fuel s header e).events.countP isHandler
          = (ContainerLogLoop read handler fuel s header e).events.countP isHeaderOk := by
  intro fuel
  induction fuel with
  | zero => intro s header e; simp [ContainerLogLoop]
  | succ n ih =>
    intro s header e
    simp only [ContainerLogLoop]
    split
    · simp [isHeaderErr, isHandler, isHeaderOk]
    · obtain ⟨h1, h2, h3⟩ := ih (read (read s header.length).next
          (List.replicate (bigEndianUint32 (List.drop 4 (fill header
            (read s header.length).data))) (0 : Byte)).length).next
        (fill header (read s header.length).data)
        (handler e (fill (List.replicate (bigEndianUint32 (List.drop 4 (fill header
            (read s header.length).data))) 0)
          (read (read s header.length).next (List.replicate (bigEndianUint32 (List.drop 4
            (fill header (read s header.length).data))) (0 : Byte)).length).data)).1
      refine ⟨?_, ?_, ?_⟩
      · simpa [List.countP_cons, isHeaderErr] using h1
      · intro hd
        obtain ⟨m, hm⟩ := h2 hd
        refine ⟨m, ?_⟩
        rw [List.getLast?_cons_cons, List.getLast?_cons_cons]
        cases hev : (ContainerLogLoop read handler n _ _ _).events with
        | nil => rw [hev] at hm; simp at hm
        | cons x xs => rw [hev] at hm; rw [List.getLast?_cons_cons]; exact hm
      · simpa [List.countP_cons, isHeaderErr, isHandler, isHeaderOk] using h3

/-- The loop does not look at what the handler returns. -/
theorem ContainerLogLoop_handler_result {σ η : Type} (read : Reader σ)
    (h1 h2 : η → List Byte → η × Bool) (hsame : ∀ e line, (h1 e line).1 = (h2 e line).1) :
    ∀ (fuel : Nat) (s : σ) (header : List Byte) (e : η),
      ContainerLogLoop read h1 fuel s header e = ContainerLogLoop read h2 fuel s header e := by
  intro fuel
  induction fuel with
  | zero => intro s header e; rfl
  | succ n ih =>
    intro s header e
    simp only [ContainerLogLoop]
    split
    · rfl
    · rw [hsame, ih]

theorem Whole_congr (fs : List Frame) :
    ∀ (gs : List Frame) (sizes : List Nat),
      fs.map Frame.payload = gs.map Frame.payload → Whole fs sizes → Whole gs sizes := by
  induction fs with
  | nil =>
    intro gs sizes h _
    cases gs with
    | nil => trivial
    | cons g gs => simp at h
  | cons f fs ih =>
    intro gs sizes h hw
    cases gs with
    | nil => simp at h
    | cons g gs =>
      simp only [List.map_cons, List.cons.injEq] at h
      refine ⟨hw.1, ?_, ih gs _ h.2 hw.2.2⟩
      rw [← h.1]
      exact hw.2.1

theorem handlerState_congr {η : Type} (handler : η → List Byte → η × Bool) (fs : List Frame) :
    ∀ (gs : List Frame) (e : η),
      fs.map Frame.payload = gs.map Frame.payload →
      handlerState handler e fs = handlerState handler e gs := by
  induction fs with
  | nil =>
    intro gs e h
    cases gs with
    | nil => rfl
    | cons g gs => simp at h
  | cons f fs ih =>
    intro gs e h
    cases gs with
    | nil => simp at h
    | cons g gs =>
      simp only [List.map_cons, List.cons.injEq] at h
      simp only [handlerState, h.1]
      exact ih gs _ h.2

theorem countP_isHandler_frameEvents (fs : List Frame) :
    List.countP isHandler (frameEvents fs) = fs.length := by
  induction fs with
  | nil => rfl
  | cons f fs ih => simp [frameEvents, List.countP_cons, isHandler, ih]

/-! ## Where the loop stops -/

/-- A round whose header read returns an error: the loop is left at once, with no call
of the handler and no further read. -/
theorem ContainerLogLoop_round_err {σ η : Type} (read : Reader σ)
    (handler : η → List Byte → η × Bool) (fuel : Nat) (s : σ) (header : List Byte) (e : η)
    (h : headerErr read (s, header) = true) :
    (ContainerLogLoop read handler (fuel + 1) s header e).done = true
      ∧ (ContainerLogLoop read handler (fuel + 1) s header e).events.countP isHandler = 0
      ∧ (ContainerLogLoop read handler (fuel + 1) s header e).events.countP isHeaderOk = 0
      ∧ (ContainerLogLoop read handler (fuel + 1) s header e).rd
        = (read s header.length).next := by
  simp only [headerErr] at h
  simp [ContainerLogLoop, h, isHandler, isHeaderOk]

/-- A round whose header read returns no error: the handler is called once and the loop
goes on from the state `nextRound` gives, whatever the handler returned. -/
theorem ContainerLogLoop_round_ok {σ η : Type} (read : Reader σ)
    (handler : η → List Byte → η × Bool) (fuel : Nat) (s : σ) (header : List Byte) (e : η)
    (h : headerErr read (s, header) = false) :
    ∃ e2 : η,
      (ContainerLogLoop read handler (fuel + 1) s header e).done
          = (ContainerLogLoop read handler fuel (nextRound read (s, header)).1
              (nextRound read (s, header)).2 e2).done
        ∧ (ContainerLogLoop read handler (fuel + 1) s header e).events.countP isHandler
          = (ContainerLogLoop read handler fuel (nextRound read (s, header)).1
              (nextRound read (s, header)).2 e2).events.countP isHandler + 1
        ∧ (ContainerLogLoop read handler (fuel + 1) s header e).events.countP isHeaderOk
          = (ContainerLogLoop read handler fuel (nextRound read (s, header)).1
              (nextRound read (s, header)).2 e2).events.countP isHeaderOk + 1
        ∧ (ContainerLogLoop read handler (fuel + 1) s header e).rd
          = (ContainerLogLoop read handler fuel (nextRound read (s, header)).1
              (nextRound read (s, header)).2 e2).rd := by
  simp only [headerErr] at h
  refine ⟨(handler e (fill (List.replicate (bigEndianUint32 (List.drop 4 (fill header
      (read s header.length).data))) 0)
    (read (read s header.length).next (bigEndianUint32 (List.drop 4
      (fill header (read s header.length).data)))).data)).1, ?_⟩
  simp [ContainerLogLoop, h, nextRound, List.countP_cons, isHandler, isHeaderOk]

/-- When the header read of round `k` is the first to return an error, the loop, given
fuel for more than `k` rounds, is left in that round: the handler has been called `k`
times and the reader is as that header read left it. -/
theorem ContainerLogLoop_stops_at {σ η : Type} (read : Reader σ)
    (handler : η → List Byte → η × Bool) (k : Nat) :
    ∀ (fuel : Nat) (s : σ) (header : List Byte) (e : η),
      (∀ j < k, headerErr read ((nextRound read)^[j] (s, header)) = false) →
      headerErr read ((nextRound read)^[k] (s, header)) = true →
      k < fuel →
      (ContainerLogLoop read handler fuel s header e).done = true
        ∧ (ContainerLogLoop read handler fuel s header e).events.countP isHandler = k
        ∧ (ContainerLogLoop read handler fuel s header e).events.countP isHeaderOk = k
        ∧ (ContainerLogLoop read handler fuel s header e).rd
          = (read ((nextRound read)^[k] (s, header)).1
              ((nextRound read)^[k] (s, header)).2.length).next := by
  induction k with
  | zero =>
    intro fuel s header e _ herr hf
    obtain ⟨f, rfl⟩ : ∃ f, fuel = f + 1 := ⟨fuel - 1, by omega⟩
    simpa using ContainerLogLoop_round_err read handler f s header e (by simpa using herr)
  | succ k ih =>
    intro fuel s header e hok herr hf
    obtain ⟨f, rfl⟩ : ∃ f, fuel = f + 1 := ⟨fuel - 1, by omega⟩
    have h0 : headerErr read (s, header) = false := by simpa using hok 0 (Nat.succ_pos k)
    obtain ⟨e2, a1, a2, a3, a4⟩ := ContainerLogLoop_round_ok read handler f s header e h0
    have hst : ∀ j, (nextRound read)^[j + 1] (s, header)
        = (nextRound read)^[j] ((nextRound read (s, header)).1, (nextRound read (s, header)).2) := by
      intro j
      rw [Function.iterate_succ_apply]
    obtain ⟨b1, b2, b3, b4⟩ := ih f (nextRound read (s, header)).1
      (nextRound read (s, header)).2 e2
      (fun j hj => by rw [← hst]; exact hok (j + 1) (Nat.succ_lt_succ hj))
      (by rw [← hst]; exact herr) (by omega)
    rw [a1, a2, a3, a4, b1, b2, b3, b4, hst]
    exact ⟨rfl, rfl, rfl, rfl⟩

/-- While no header read returns an error the loop goes on: after `fuel` rounds it has
not been left and the handler has been called `fuel` times. -/
theorem ContainerLogLoop_runs_on {σ η : Type} (read : Reader σ)
    (handler : η → List Byte → η × Bool) (fuel : Nat) :
    ∀ (s : σ) (header : List Byte) (e : η),
      (∀ j < fuel, headerErr read ((nextRound read)^[j] (s, header)) = false) →
      (ContainerLogLoop read handler fuel s header e).done = false
        ∧ (ContainerLogLoop read handler fuel s header e).events.countP isHandler = fuel := by
  induction fuel with
  | zero => intro s header e _; simp [ContainerLogLoop]
  | succ f ih =>
    intro s header e hok
    have h0 : headerErr read (s, header) = false := by simpa using hok 0 (Nat.succ_pos f)
    obtain ⟨e2, a1, a2, _, _⟩ := ContainerLogLoop_round_ok read handler f s header e h0
    obtain ⟨b1, b2⟩ := ih (nextRound read (s, header)).1 (nextRound read (s, header)).2 e2
      (fun j hj => by
        have := hok (j + 1) (Nat.succ_lt_succ hj)
        rwa [Function.iterate_succ_apply] at this)
    rw [a1, a2, b1, b2]
    exact ⟨rfl, rfl⟩

end Dockerclient

/-! ## The claims on `ContainerLog` -/

namespace Dockerclient

/-- C1, as stated, fails: the frame carrying "hi", delivered one byte per `Read`, makes
`ContainerLog` call the handler ten times with the empty string and then stop; with no
amount of fuel is the handler called just once with "hi". -/
theorem ContainerLog_one_byte_reads_counterexample :
    strings (ContainerLog chunkedRead printHandler 11 hiByByte []).events
        = List.replicate 10 []
      ∧ (ContainerLog chunkedRead printHandler 11 hiByByte []).done = true
      ∧ ∀ fuel, strings (ContainerLog chunkedRead printHandler fuel hiByByte []).events
          ≠ [[104, 105]] := by
  have h11 : strings (ContainerLog chunkedRead printHandler 11 hiByByte []).events
      = List.replicate 10 [] := by decide
  have hd : (ContainerLog chunkedRead printHandler 11 hiByByte []).done = true := by decide
  refine ⟨h11, hd, ?_⟩
  intro fuel
  by_cases hf : fuel ≤ 11
  · interval_cases fuel <;> decide
  · obtain ⟨k, rfl⟩ : ∃ k, fuel = 11 + k := ⟨fuel - 11, by omega⟩
    have := ContainerLogLoop_done_stable chunkedRead printHandler k 11 hiByByte
      (List.replicate 8 0) [] hd
    unfold ContainerLog at h11 ⊢
    rw [this, h11]
    decide

/-- C1, amended: for every stream that is a concatenation of well-formed frames, read
through the reader `chunkedRead` with a schedule under which every `Read` fills the
buffer it is given (`Whole`), that is a reader that returns no error while bytes are
left and reports the end of the stream only by a `Read` that returns zero bytes,
`ContainerLog` calls the handler exactly once per frame, in stream order, with that
frame's payload, and then stops at the end of the stream. -/
theorem ContainerLog_whole_reads {η : Type} (handler : η → List Byte → η × Bool) (e : η)
    (frames : List Frame) (sizes : List Nat) (fuel : Nat)
    (hlen : ∀ f ∈ frames, f.payload.length < 2 ^ 32) (hw : Whole frames sizes)
    (hfuel : frames.length < fuel) :
    strings (ContainerLog chunkedRead handler fuel ⟨encodeAll frames, sizes⟩ e).events
        = frames.map Frame.payload
      ∧ (ContainerLog chunkedRead handler fuel ⟨encodeAll frames, sizes⟩ e).events.countP
          isHandler = frames.length
      ∧ (ContainerLog chunkedRead handler fuel ⟨encodeAll frames, sizes⟩ e).done = true := by
  obtain ⟨h1, h2, _⟩ := ContainerLog_frames_any_fuel handler frames fuel sizes e hlen hw
  have ht : frames.take fuel = frames := List.take_of_length_le (Nat.le_of_lt hfuel)
  rw [h1, h2, ht]
  refine ⟨?_, ?_, by simpa using hfuel⟩
  · simp [strings_append, strings_frameEvents, hfuel, strings]
  · rw [List.countP_append]
    rw [countP_isHandler_frameEvents]
    simp [hfuel, isHandler]

/-- C1, amended, at two frames and a schedule that lets every read fill its buffer. -/
theorem ContainerLog_whole_reads_witness :
    strings (ContainerLog chunkedRead printHandler 3
        ⟨encodeAll [helloFrame, emptyFrame 2], [8, 5, 9, 0]⟩ []).events
        = [helloFrame, emptyFrame 2].map Frame.payload
      ∧ (ContainerLog chunkedRead printHandler 3
        ⟨encodeAll [helloFrame, emptyFrame 2], [8, 5, 9, 0]⟩ []).events.countP isHandler
        = [helloFrame, emptyFrame 2].length
      ∧ (ContainerLog chunkedRead printHandler 3
        ⟨encodeAll [helloFrame, emptyFrame 2], [8, 5, 9, 0]⟩ []).done = true :=
  ContainerLog_whole_reads printHandler [] [helloFrame, emptyFrame 2] [8, 5, 9, 0] 3
    (by decide) (by simp [Whole, helloFrame, emptyFrame]) (by decide)

/-- C2, the code at two truncated streams, read by a reader that fills every buffer as
far as the stream reaches: on a stream that ends two bytes into a payload declared five
bytes long no frame is wholly present, yet the handler is called, with those two bytes
and three zero bytes; on a stream that ends three bytes into the header after the
"hello" frame the handler is called a second time, with five zero bytes.  The claim
says the handler is never called for the incomplete frame. -/
theorem ContainerLog_truncated_stream :
    wholeFrames 3 cutInPayload.rest = []
      ∧ strings (ContainerLog chunkedRead printHandler 3 cutInPayload []).events
        = [[104, 101, 0, 0, 0]]
      ∧ wholeFrames 3 cutInHeader.rest = [[104, 101, 108, 108, 111]]
      ∧ strings (ContainerLog chunkedRead printHandler 3 cutInHeader []).events
        = [[104, 101, 108, 108, 111], [0, 0, 0, 0, 0]]
      ∧ (ContainerLog chunkedRead printHandler 3 cutInPayload []).done = true
      ∧ (ContainerLog chunkedRead printHandler 3 cutInHeader []).done = true := by
  decide

/-- C6: whatever the reader does (short reads, errors on the payload read), every string
`ContainerLog` passes to the handler is exactly as long as the 32-bit big-endian value of
bytes 4..7 of the 8-byte header buffer at that call. -/
theorem ContainerLog_string_length {σ η : Type} (read : Reader σ)
    (handler : η → List Byte → η × Bool) (fuel : Nat) (s : σ) (e : η) (hdr dat : List Byte)
    (hmem : Event.handler hdr dat ∈ (ContainerLog read handler fuel s e).events) :
    dat.length = bigEndianUint32 (hdr.drop 4) ∧ hdr.length = 8 := by
  have h := ContainerLogLoop_string_length read handler hdr dat fuel s (List.replicate 8 0) e hmem
  simpa using h

/-- C6 at a payload read that comes back short: the string still has the declared five
bytes. -/
theorem ContainerLog_string_length_witness :
    ([104, 101, 0, 0, 0] : List Byte).length
        = bigEndianUint32 (([1, 0, 0, 0, 0, 0, 0, 5] : List Byte).drop 4)
      ∧ ([1, 0, 0, 0, 0, 0, 0, 5] : List Byte).length = 8 :=
  ContainerLog_string_length chunkedRead printHandler 3 shortPayload []
    [1, 0, 0, 0, 0, 0, 0, 5] [104, 101, 0, 0, 0] (by decide)

/-- C7: for every list of frames, when the reader fills each requested buffer and
returns end-of-input only once the stream is used up, `ContainerLog` run on the encoding
of the list (discriminant byte, three reserved bytes, big-endian length, payload) calls
the handler with exactly the payloads of the list in order and then stops; the stdout
frame carrying "hello" gives one call with "hello", a frame with an empty payload one
call with the empty string. -/
theorem ContainerLog_full_reads {η : Type} (handler : η → List Byte → η × Bool) (e : η)
    (frames : List Frame) (fuel : Nat)
    (hlen : ∀ f ∈ frames, f.payload.length < 2 ^ 32) (hfuel : frames.length < fuel) :
    (ContainerLog chunkedRead handler fuel ⟨encodeAll frames, []⟩ e).events
        = frameEvents frames ++ [Event.readHeader 0 true]
      ∧ strings (ContainerLog chunkedRead handler fuel ⟨encodeAll frames, []⟩ e).events
        = frames.map Frame.payload
      ∧ (ContainerLog chunkedRead handler fuel ⟨encodeAll frames, []⟩ e).done = true
      ∧ (ContainerLog chunkedRead handler fuel ⟨encodeAll frames, []⟩ e).hs
        = handlerState handler e frames
      ∧ encodeAll [helloFrame] = [1, 0, 0, 0, 0, 0, 0, 5, 104, 101, 108, 108, 111]
      ∧ strings (ContainerLog chunkedRead handler 2
          ⟨[1, 0, 0, 0, 0, 0, 0, 5, 104, 101, 108, 108, 111], []⟩ e).events
        = [[104, 101, 108, 108, 111]]
      ∧ (ContainerLog chunkedRead handler 2
          ⟨[1, 0, 0, 0, 0, 0, 0, 5, 104, 101, 108, 108, 111], []⟩ e).done = true
      ∧ strings (ContainerLog chunkedRead handler 2 ⟨[1, 0, 0, 0, 0, 0, 0, 0], []⟩ e).events
        = [[]]
      ∧ (ContainerLog chunkedRead handler 2 ⟨[1, 0, 0, 0, 0, 0, 0, 0], []⟩ e).done = true := by
  obtain ⟨h1, h2, h3⟩ :=
    ContainerLog_frames_any_fuel handler frames fuel [] e hlen (Whole_nil frames)
  have ht : frames.take fuel = frames := List.take_of_length_le (Nat.le_of_lt hfuel)
  rw [h1, h2, h3, ht]
  refine ⟨by simp [hfuel], ?_, by simpa using hfuel, rfl, rfl, rfl, rfl, rfl, rfl⟩
  simp [strings_append, strings_frameEvents, hfuel, strings]

/-- C7 at the "hello" frame followed by an empty stderr frame. -/
theorem ContainerLog_full_reads_witness :
    strings (ContainerLog chunkedRead printHandler 3
        ⟨encodeAll [helloFrame, emptyFrame 2], []⟩ []).events
      = [[104, 101, 108, 108, 111], []] :=
  (ContainerLog_full_reads printHandler [] [helloFrame, emptyFrame 2] 3
    (by decide) (by decide)).2.1

/-- C9, as stated, fails: two streams of two empty frames that differ only in the
discriminant byte of the second frame (stdout, stderr) are read with the same schedule
of chunk sizes, and every `Read` returns the same count and error in both runs; the
first `Read` delivers one byte, so the discriminant byte of the second frame lands in
byte 7 of the header buffer, and the handler gets strings of length 1 for stdout and of
length 2 for stderr. -/
theorem ContainerLog_kind_counterexample :
    [emptyFrame 1, emptyFrame 1].map Frame.payload
        = [emptyFrame 1, emptyFrame 2].map Frame.payload
      ∧ (twoEmpty 1).sizes = (twoEmpty 2).sizes
      ∧ reads (ContainerLog chunkedRead printHandler 4 (twoEmpty 1) []).events
        = reads (ContainerLog chunkedRead printHandler 4 (twoEmpty 2) []).events
      ∧ strings (ContainerLog chunkedRead printHandler 4 (twoEmpty 1) []).events
        = [[], [0], [0]]
      ∧ strings (ContainerLog chunkedRead printHandler 4 (twoEmpty 2) []).events
        = [[], [0, 0], [0, 0]]
      ∧ (ContainerLog chunkedRead printHandler 4 (twoEmpty 1) []).done = true
      ∧ (ContainerLog chunkedRead printHandler 4 (twoEmpty 2) []).done = true := by
  decide

/-- C9, amended: for any two streams of well-formed frames that differ only in bytes
0..3 of their frame headers (the same payloads in the same order), read through the same
reader whose every `Read` fills the buffer it is given, `ContainerLog` calls the handler
with the same strings in the same order, stops at the same point and leaves the handler
in the same state, after any number of rounds. -/
theorem ContainerLog_kind_blind {η : Type} (handler : η → List Byte → η × Bool) (e : η)
    (fs gs : List Frame) (sizes : List Nat) (fuel : Nat)
    (hsame : fs.map Frame.payload = gs.map Frame.payload)
    (hlen : ∀ f ∈ fs, f.payload.length < 2 ^ 32) (hw : Whole fs sizes) :
    strings (ContainerLog chunkedRead handler fuel ⟨encodeAll fs, sizes⟩ e).events
        = strings (ContainerLog chunkedRead handler fuel ⟨encodeAll gs, sizes⟩ e).events
      ∧ (ContainerLog chunkedRead handler fuel ⟨encodeAll fs, sizes⟩ e).done
        = (ContainerLog chunkedRead handler fuel ⟨encodeAll gs, sizes⟩ e).done
      ∧ (ContainerLog chunkedRead handler fuel ⟨encodeAll fs, sizes⟩ e).hs
        = (ContainerLog chunkedRead handler fuel ⟨encodeAll gs, sizes⟩ e).hs := by
  have hlen2 : ∀ g ∈ gs, g.payload.length < 2 ^ 32 := by
    intro g hg
    have : g.payload ∈ gs.map Frame.payload := List.mem_map_of_mem _ hg
    rw [← hsame] at this
    obtain ⟨f, hf, hfg⟩ := List.mem_map.mp this
    rw [← hfg]
    exact hlen f hf
  have hll : fs.length = gs.length := by
    have := congrArg List.length hsame
    simpa using this
  have htake : (fs.take fuel).map Frame.payload = (gs.take fuel).map Frame.payload := by
    rw [List.map_take, List.map_take, hsame]
  obtain ⟨a1, a2, a3⟩ := ContainerLog_frames_any_fuel handler fs fuel sizes e hlen hw
  obtain ⟨b1, b2, b3⟩ := ContainerLog_frames_any_fuel handler gs fuel sizes e hlen2
    (Whole_congr fs gs sizes hsame hw)
  rw [a1, a2, a3, b1, b2, b3, hll]
  refine ⟨?_, rfl, handlerState_congr handler _ _ e htake⟩
  rw [strings_append, strings_append, strings_frameEvents, strings_frameEvents, htake]

/-- C9, amended, at a stdout and a stderr frame with the same payload. -/
theorem ContainerLog_kind_blind_witness :
    strings (ContainerLog chunkedRead printHandler 2
        ⟨encodeAll [helloFrame], []⟩ []).events
        = strings (ContainerLog chunkedRead printHandler 2
          ⟨encodeAll [⟨2, 7, 7, 7, [104, 101, 108, 108, 111]⟩], []⟩ []).events
      ∧ (ContainerLog chunkedRead printHandler 2 ⟨encodeAll [helloFrame], []⟩ []).done
        = (ContainerLog chunkedRead printHandler 2
          ⟨encodeAll [⟨2, 7, 7, 7, [104, 101, 108, 108, 111]⟩], []⟩ []).done
      ∧ (ContainerLog chunkedRead printHandler 2 ⟨encodeAll [helloFrame], []⟩ []).hs
        = (ContainerLog chunkedRead printHandler 2
          ⟨encodeAll [⟨2, 7, 7, 7, [104, 101, 108, 108, 111]⟩], []⟩ []).hs :=
  ContainerLog_kind_blind printHandler [] [helloFrame]
    [⟨2, 7, 7, 7, [104, 101, 108, 108, 111]⟩] [] 2 (by decide) (by decide)
    (Whole_nil _)

/-- C10: the boolean returned by the handler has no effect on `ContainerLog`: with two
handlers that differ only in what they return, the run is the same (the same reads, the
same handler calls with the same arguments, the same final states).  It stops at the
first header read that returns an error and nowhere else: when the header read of round
`k` is the first to return an error, then with fuel for more than `k` rounds the loop
has been left, the handler has been called exactly `k` times, once for every header
read that returned no error, and the reader is as that header read left it; and while no
header read returns an error the loop goes on, with one handler call per round.  In the
trace a header read with an error is there exactly when the loop has been left, and is
then the last event. -/
theorem ContainerLog_ignores_handler_result {σ η : Type} (read : Reader σ)
    (h1 h2 : η → List Byte → η × Bool) (fuel : Nat) (s : σ) (e : η)
    (hsame : ∀ st line, (h1 st line).1 = (h2 st line).1) :
    ContainerLog read h1 fuel s e = ContainerLog read h2 fuel s e
      ∧ (ContainerLog read h1 fuel s e).events.countP isHeaderErr
        = (if (ContainerLog read h1 fuel s e).done then 1 else 0)
      ∧ ((ContainerLog read h1 fuel s e).done = true →
          ∃ n, (ContainerLog read h1 fuel s e).events.getLast?
            = some (Event.readHeader n true))
      ∧ (ContainerLog read h1 fuel s e).events.countP isHandler
        = (ContainerLog read h1 fuel s e).events.countP isHeaderOk
      ∧ (∀ k, (∀ j < k, headerErr read ((nextRound read)^[j] (s, List.replicate 8 0)) = false) →
          headerErr read ((nextRound read)^[k] (s, List.replicate 8 0)) = true →
          k < fuel →
          (ContainerLog read h1 fuel s e).done = true
            ∧ (ContainerLog read h1 fuel s e).events.countP isHandler = k
            ∧ (ContainerLog read h1 fuel s e).events.countP isHeaderOk = k
            ∧ (ContainerLog read h1 fuel s e).rd
              = (read ((nextRound read)^[k] (s, List.replicate 8 0)).1
                  ((nextRound read)^[k] (s, List.replicate 8 0)).2.length).next)
      ∧ ((∀ j < fuel, headerErr read ((nextRound read)^[j] (s, List.replicate 8 0)) = false) →
          (ContainerLog read h1 fuel s e).done = false
            ∧ (ContainerLog read h1 fuel s e).events.countP isHandler = fuel) :=
  ⟨ContainerLogLoop_handler_result read h1 h2 hsame fuel s (List.replicate 8 0) e,
    (ContainerLogLoop_stop read h1 fuel s (List.replicate 8 0) e).1,
    (ContainerLogLoop_stop read h1 fuel s (List.replicate 8 0) e).2.1,
    (ContainerLogLoop_stop read h1 fuel s (List.replicate 8 0) e).2.2,
    fun k hok herr hk =>
      ContainerLogLoop_stops_at read h1 k fuel s (List.replicate 8 0) e hok herr hk,
    fun hok => ContainerLogLoop_runs_on read h1 fuel s (List.replicate 8 0) e hok⟩

/-- C10 at a handler that always returns `false` and the handler of
`CreateNewContainer`, which always returns `true`, on the "hello" frame followed by an
empty frame: the runs are equal, and with the handler that returns `false` the loop is
left only at the third header read, after two handler calls. -/
theorem ContainerLog_ignores_handler_result_witness :
    ContainerLog chunkedRead refusingHandler 5 ⟨encodeAll [helloFrame, emptyFrame 2], []⟩ []
        = ContainerLog chunkedRead printHandler 5
          ⟨encodeAll [helloFrame, emptyFrame 2], []⟩ []
      ∧ (ContainerLog chunkedRead refusingHandler 5
          ⟨encodeAll [helloFrame, emptyFrame 2], []⟩ []).done = true
      ∧ (ContainerLog chunkedRead refusingHandler 5
          ⟨encodeAll [helloFrame, emptyFrame 2], []⟩ []).events.countP isHandler = 2 :=
  ⟨(ContainerLog_ignores_handler_result chunkedRead refusingHandler printHandler 5
      ⟨encodeAll [helloFrame, emptyFrame 2], []⟩ [] (fun _ _ => rfl)).1,
    ((ContainerLog_ignores_handler_result chunkedRead refusingHandler printHandler 5
      ⟨encodeAll [helloFrame, emptyFrame 2], []⟩ [] (fun _ _ => rfl)).2.2.2.2.1 2
      (by decide) (by decide) (by decide)).1,
    ((ContainerLog_ignores_handler_result chunkedRead refusingHandler printHandler 5
      ⟨encodeAll [helloFrame, emptyFrame 2], []⟩ [] (fun _ _ => rfl)).2.2.2.2.1 2
      (by decide) (by decide) (by decide)).2.1⟩

end Dockerclient

/-! ## Lemmas on the traces of `main` -/

namespace Pipeline

@[simp] theorem orFatal_true (c : Bool → Call) (k : List Call) :
    orFatal c true k = c true :: k := rfl

@[simp] theorem orFatal_false (c : Bool → Call) (k : List Call) :
    orFatal c false k = [c false, Call.logFatal] := rfl

theorem mem_orFatal (c : Bool → Call) (ok : Bool) (k : List Call) (x : Call)
    (h : x ∈ orFatal c ok k) : x = c ok ∨ x = Call.logFatal ∨ (ok = true ∧ x ∈ k) := by
  cases ok <;> simp at h <;> tauto

theorem drive_ok (env : Env) (k : List Call) (h : env.driveOk = true) :
    drive env k = [Call.pageEnable true, Call.domContentEventFired true,
      Call.navigate "https://golang.org" true, Call.recv true,
      Call.evaluate "document.header" true, Call.captureScreenshot "jpeg" 80 true,
      Call.writeFile "screenshot.jpg" true] ++ k := by
  simp only [Env.driveOk, Bool.and_eq_true] at h
  obtain ⟨⟨⟨⟨⟨⟨h1, h2⟩, h3⟩, h4⟩, h5⟩, h6⟩, h7⟩ := h
  simp [drive, h1, h2, h3, h4, h5, h6, h7]

theorem mem_drive (env : Env) (k : List Call) (x : Call) (h : x ∈ drive env k) :
    isDriveCall x = true ∨ x = Call.logFatal ∨ (env.driveOk = true ∧ x ∈ k) := by
  unfold drive at h
  simp only [Env.driveOk, Bool.and_eq_true]
  rcases mem_orFatal _ _ _ x h with h | h | ⟨e1, h⟩
  · exact Or.inl (by rw [h]; rfl)
  · exact Or.inr (Or.inl h)
  rcases mem_orFatal _ _ _ x h with h | h | ⟨e2, h⟩
  · exact Or.inl (by rw [h]; rfl)
  · exact Or.inr (Or.inl h)
  rcases mem_orFatal _ _ _ x h with h | h | ⟨e3, h⟩
  · exact Or.inl (by rw [h]; rfl)
  · exact Or.inr (Or.inl h)
  rcases mem_orFatal _ _ _ x h with h | h | ⟨e4, h⟩
  · exact Or.inl (by rw [h]; rfl)
  · exact Or.inr (Or.inl h)
  rcases mem_orFatal _ _ _ x h with h | h | ⟨e5, h⟩
  · exact Or.inl (by rw [h]; rfl)
  · exact Or.inr (Or.inl h)
  rcases mem_orFatal _ _ _ x h with h | h | ⟨e6, h⟩
  · exact Or.inl (by rw [h]; rfl)
  · exact Or.inr (Or.inl h)
  rcases mem_orFatal _ _ _ x h with h | h | ⟨e7, h⟩
  · exact Or.inl (by rw [h]; rfl)
  · exact Or.inr (Or.inl h)
  exact Or.inr (Or.inr ⟨⟨⟨⟨⟨⟨⟨e1, e2⟩, e3⟩, e4⟩, e5⟩, e6⟩, e7⟩, h⟩)

theorem navigateGuarded_true_true (l : List Call) : navigateGuarded true true l = true := by
  induction l with
  | nil => rfl
  | cons c cs ih =>
    cases c with
    | pageEnable ok => cases ok <;> simp [navigateGuarded, ih]
    | domContentEventFired ok => cases ok <;> simp [navigateGuarded, ih]
    | _ => simp [navigateGuarded, ih]

theorem navigateGuarded_drive (env : Env) (k : List Call) :
    navigateGuarded false false (drive env k) = true := by
  unfold drive
  cases env.enable <;> cases env.subscribe
    <;> simp [navigateGuarded, navigateGuarded_true_true]

theorem navigateGuarded_readiness (env : Env) (k : List Call) :
    navigateGuarded false false (readiness env (drive env k)) = true := by
  unfold readiness
  cases env.get <;> cases env.create <;> cases env.dial
    <;> simp [navigateGuarded, navigateGuarded_drive]

/-- What the scan `navigateGuarded` means: in front of every `Page.Navigate` of the trace
there is a successful `Page.Enable` and a successful subscription. -/
theorem navigateGuarded_spec (l : List Call) :
    ∀ (en sub : Bool) (pre post : List Call) (url : String) (ok : Bool),
      navigateGuarded en sub l = true → l = pre ++ Call.navigate url ok :: post →
      (en = true ∨ Call.pageEnable true ∈ pre)
        ∧ (sub = true ∨ Call.domContentEventFired true ∈ pre) := by
  induction l with
  | nil => intro en sub pre post url ok _ h; simp at h
  | cons c cs ih =>
    intro en sub pre post url ok hg h
    cases pre with
    | nil =>
      simp only [List.nil_append, List.cons.injEq] at h
      obtain ⟨rfl, rfl⟩ := h
      simp only [navigateGuarded, Bool.and_eq_true] at hg
      exact ⟨Or.inl hg.1.1, Or.inl hg.1.2⟩
    | cons a as =>
      simp only [List.cons_append, List.cons.injEq] at h
      obtain ⟨rfl, hcs⟩ := h
      cases c with
      | navigate u o =>
        simp only [navigateGuarded, Bool.and_eq_true] at hg
        exact ⟨Or.inl hg.1.1, Or.inl hg.1.2⟩
      | pageEnable o =>
        cases o with
        | true =>
          simp only [navigateGuarded] at hg
          have := ih true sub as post url ok hg hcs
          exact ⟨Or.inr (List.mem_cons_self _ _), this.2.imp id (List.mem_cons_of_mem _)⟩
        | false =>
          simp only [navigateGuarded] at hg
          have := ih en sub as post url ok hg hcs
          exact ⟨this.1.imp id (List.mem_cons_of_mem _), this.2.imp id (List.mem_cons_of_mem _)⟩
      | domContentEventFired o =>
        cases o with
        | true =>
          simp only [navigateGuarded] at hg
          have := ih en true as post url ok hg hcs
          exact ⟨this.1.imp id (List.mem_cons_of_mem _), Or.inr (List.mem_cons_self _ _)⟩
        | false =>
          simp only [navigateGuarded] at hg
          have := ih en sub as post url ok hg hcs
          exact ⟨this.1.imp id (List.mem_cons_of_mem _), this.2.imp id (List.mem_cons_of_mem _)⟩
      | _ =>
        simp only [navigateGuarded] at hg
        have := ih en sub as post url ok hg hcs
        exact ⟨this.1.imp id (List.mem_cons_of_mem _), this.2.imp id (List.mem_cons_of_mem _)⟩

end Pipeline

/-! ## The shape of the traces -/

namespace Pipeline

theorem isTeardown_of_isDriveCall (x : Call) (h : isDriveCall x = true) :
    isTeardown x = false := by
  cases x <;> simp_all [isDriveCall, isProtocol, isTeardown]

/-- With a target, a successful dial and every step up to the file write succeeding,
the readiness step and the drive are a fixed run of calls, none of which releases
anything, followed by what comes after the file write. -/
theorem readiness_drive_ok (env : Env) (k : List Call) (ht : env.targetOk = true)
    (hd : env.dial = true) (hdr : env.driveOk = true) :
    ∃ pre, readiness env (drive env k) = pre ++ k ∧ ∀ x ∈ pre, isTeardown x = false := by
  rw [drive_ok env k hdr]
  unfold readiness
  unfold Env.targetOk at ht
  cases hg : env.get with
  | ok p =>
    refine ⟨[Call.devtGet true, Call.dial p.webSocketDebuggerURL true, Call.pageEnable true,
      Call.domContentEventFired true, Call.navigate "https://golang.org" true, Call.recv true,
      Call.evaluate "document.header" true, Call.captureScreenshot "jpeg" 80 true,
      Call.writeFile "screenshot.jpg" true], ?_, ?_⟩
    · simp [hd]
    · intro x hx
      simp at hx
      rcases hx with h | h | h | h | h | h | h | h | h <;> rw [h] <;> rfl
  | error er =>
    rw [hg] at ht
    cases hc : env.create with
    | ok p =>
      refine ⟨[Call.devtGet false, Call.devtCreate true,
        Call.dial p.webSocketDebuggerURL true, Call.pageEnable true,
        Call.domContentEventFired true, Call.navigate "https://golang.org" true,
        Call.recv true, Call.evaluate "document.header" true,
        Call.captureScreenshot "jpeg" 80 true, Call.writeFile "screenshot.jpg" true], ?_, ?_⟩
      · simp [hd]
      · intro x hx
        simp at hx
        rcases hx with h | h | h | h | h | h | h | h | h | h <;> rw [h] <;> rfl
    | error er2 =>
      rw [hc] at ht
      simp at ht

/-- A call that releases something is in the readiness step and the drive only when a
target was obtained, the dial and every step up to the file write succeeded, and the
call is among those after the file write. -/
theorem mem_readiness_drive_teardown (env : Env) (k : List Call) (x : Call)
    (hx : x ∈ readiness env (drive env k)) (ht : isTeardown x = true) :
    (env.targetOk = true ∧ env.dial = true ∧ env.driveOk = true) ∧ x ∈ k := by
  have key : ∀ y, y ∈ drive env k → isTeardown y = true → env.driveOk = true ∧ y ∈ k := by
    intro y hy hty
    rcases mem_drive env k y hy with h | h | h
    · rw [isTeardown_of_isDriveCall y h] at hty
      exact absurd hty (by decide)
    · rw [h] at hty
      exact absurd hty (by decide)
    · exact h
  unfold readiness at hx
  unfold Env.targetOk
  cases hg : env.get with
  | ok p =>
    rw [hg] at hx
    simp only [List.mem_cons] at hx
    rcases hx with h | h
    · rw [h] at ht; exact absurd ht (by decide)
    · rcases mem_orFatal _ _ _ x h with h | h | ⟨hd, h⟩
      · rw [h] at ht; exact absurd ht (by simp [isTeardown])
      · rw [h] at ht; exact absurd ht (by decide)
      · exact ⟨⟨rfl, hd, (key x h ht).1⟩, (key x h ht).2⟩
  | error er =>
    rw [hg] at hx
    simp only [List.mem_cons] at hx
    rcases hx with h | h
    · rw [h] at ht; exact absurd ht (by decide)
    · cases hc : env.create with
      | ok p =>
        rw [hc] at h
        simp only [List.mem_cons] at h
        rcases h with h | h
        · rw [h] at ht; exact absurd ht (by decide)
        · rcases mem_orFatal _ _ _ x h with h | h | ⟨hd, h⟩
          · rw [h] at ht; exact absurd ht (by simp [isTeardown])
          · rw [h] at ht; exact absurd ht (by decide)
          · exact ⟨⟨rfl, hd, (key x h ht).1⟩, (key x h ht).2⟩
      | error er2 =>
        rw [hc] at h
        simp only [List.mem_cons, List.mem_singleton, List.not_mem_nil, or_false] at h
        rcases h with h | h <;> rw [h] at ht <;> exact absurd ht (by decide)

theorem dockerclient_CreateNewContainer_some (env : Env) (img id : String) :
    (Dockerclient.CreateNewContainer env img).2 = some id
      ↔ env.containerCreate = some id ∧ env.containerStart = true := by
  unfold Dockerclient.CreateNewContainer
  cases hc : env.containerCreate <;> cases hs : env.containerStart <;> simp

theorem main_CreateNewContainer_some (env : Env) (img id : String) :
    (Main.CreateNewContainer env img).2 = some id
      ↔ env.containerCreate = some id ∧ env.containerStart = true
        ∧ env.containerLogs = true := by
  unfold Main.CreateNewContainer
  cases hc : env.containerCreate <;> cases hs : env.containerStart
    <;> cases hl : env.containerLogs <;> simp

/-- The trace of `main` in `src/dockerclient/main.go` once `CreateNewContainer` has
returned the id and the goroutine has opened the log stream. -/
theorem dockerclient_main_started (env : Env) (id : String) (hn : env.newClient = true)
    (h : (Dockerclient.CreateNewContainer env "justinribeiro/chrome-headless:latest").2
      = some id) (hl : env.containerLogs = true) :
    Dockerclient.main env =
      [Call.newClient true,
        Call.containerCreate "justinribeiro/chrome-headless:latest" "chromium" true,
        Call.containerStart id true, Call.goLogs, Call.sleep 2]
        ++ readiness env (drive env (dockerclientFinish env id)) := by
  obtain ⟨hc, hs⟩ := (dockerclient_CreateNewContainer_some env _ id).mp h
  simp [Dockerclient.main, Dockerclient.CreateNewContainer, dockerclientFinish, hn, hc, hs, hl]

/-- The trace of `main` in `src/dockerclient/main.go` when `CreateNewContainer` has
returned the id and the goroutine fails to open the log stream. -/
theorem dockerclient_main_logs_fail (env : Env) (id : String) (hn : env.newClient = true)
    (h : (Dockerclient.CreateNewContainer env "justinribeiro/chrome-headless:latest").2
      = some id) (hl : env.containerLogs = false) :
    Dockerclient.main env =
      [Call.newClient true,
        Call.containerCreate "justinribeiro/chrome-headless:latest" "chromium" true,
        Call.containerStart id true, Call.goLogs, Call.logFatal] := by
  obtain ⟨hc, hs⟩ := (dockerclient_CreateNewContainer_some env _ id).mp h
  simp [Dockerclient.main, Dockerclient.CreateNewContainer, hn, hc, hs, hl]

/-- The trace of `main` in `src/main.go` once `CreateNewContainer` has returned the id. -/
theorem main_main_started (env : Env) (id : String) (hn : env.newClient = true)
    (h : (Main.CreateNewContainer env "justinribeiro/chrome-headless:latest").2 = some id) :
    Main.main env =
      [Call.newClient true,
        Call.containerCreate "justinribeiro/chrome-headless:latest" "chromium" true,
        Call.containerStart id true, Call.containerLogs "chromium" true, Call.goLogs,
        Call.sleep 2]
        ++ readiness env (drive env (mainFinish env id)) := by
  obtain ⟨hc, hs, hl⟩ := (main_CreateNewContainer_some env _ id).mp h
  simp [Main.main, Main.CreateNewContainer, mainFinish, hn, hc, hs, hl]

end Pipeline

/-! ## Runs that end in `log.Fatal` -/

namespace Pipeline

theorem getLast?_cons_of_some (x y : Call) (k : List Call) (h : k.getLast? = some y) :
    (x :: k).getLast? = some y := by
  cases k with
  | nil => simp at h
  | cons a as => rw [List.getLast?_cons_cons]; exact h

theorem getLast?_append_of_some (pre k : List Call) (y : Call) (h : k.getLast? = some y) :
    (pre ++ k).getLast? = some y := by
  induction pre with
  | nil => exact h
  | cons a as ih => exact getLast?_cons_of_some a y _ ih

theorem getLast?_orFatal (c : Bool → Call) (ok : Bool) (k : List Call)
    (h : ok = false ∨ k.getLast? = some Call.logFatal) :
    (orFatal c ok k).getLast? = some Call.logFatal := by
  cases ok with
  | false => simp
  | true =>
    rcases h with h | h
    · exact absurd h (by decide)
    · exact getLast?_cons_of_some _ _ _ h

/-- The drive ends in `log.Fatal` when one of its steps fails, or when what follows it
does. -/
theorem getLast?_drive (env : Env) (k : List Call)
    (h : env.driveOk = false ∨ k.getLast? = some Call.logFatal) :
    (drive env k).getLast? = some Call.logFatal := by
  unfold drive
  unfold Env.driveOk at h
  cases h1 : env.enable
  · exact getLast?_orFatal _ _ _ (Or.inl rfl)
  apply getLast?_orFatal _ _ _ (Or.inr _)
  cases h2 : env.subscribe
  · exact getLast?_orFatal _ _ _ (Or.inl rfl)
  apply getLast?_orFatal _ _ _ (Or.inr _)
  cases h3 : env.navigate
  · exact getLast?_orFatal _ _ _ (Or.inl rfl)
  apply getLast?_orFatal _ _ _ (Or.inr _)
  cases h4 : env.recv
  · exact getLast?_orFatal _ _ _ (Or.inl rfl)
  apply getLast?_orFatal _ _ _ (Or.inr _)
  cases h5 : env.evaluate
  · exact getLast?_orFatal _ _ _ (Or.inl rfl)
  apply getLast?_orFatal _ _ _ (Or.inr _)
  cases h6 : env.capture
  · exact getLast?_orFatal _ _ _ (Or.inl rfl)
  apply getLast?_orFatal _ _ _ (Or.inr _)
  cases h7 : env.writeFile
  · exact getLast?_orFatal _ _ _ (Or.inl rfl)
  apply getLast?_orFatal _ _ _ (Or.inr _)
  rcases h with h | h
  · simp [h1, h2, h3, h4, h5, h6, h7] at h
  · exact h

/-- The readiness step ends in `log.Fatal` when no target is obtained, when the dial
fails, or when what follows the dial does. -/
theorem getLast?_readiness (env : Env) (k : List Call)
    (h : env.targetOk = false ∨ env.dial = false ∨ k.getLast? = some Call.logFatal) :
    (readiness env k).getLast? = some Call.logFatal := by
  unfold readiness
  unfold Env.targetOk at h
  cases hg : env.get with
  | ok p =>
    rw [hg] at h
    apply getLast?_cons_of_some
    apply getLast?_orFatal
    rcases h with h | h | h
    · simp at h
    · exact Or.inl h
    · exact Or.inr h
  | error er =>
    rw [hg] at h
    cases hc : env.create with
    | ok p =>
      rw [hc] at h
      apply getLast?_cons_of_some
      apply getLast?_cons_of_some
      apply getLast?_orFatal
      rcases h with h | h | h
      · simp at h
      · exact Or.inl h
      · exact Or.inr h
    | error er2 => simp

/-- The readiness step and the drive end in `log.Fatal` unless a target is obtained and
the dial and every step up to the file write succeed. -/
theorem getLast?_readiness_drive (env : Env) (k : List Call)
    (h : ¬(env.targetOk = true ∧ env.dial = true ∧ env.driveOk = true)) :
    (readiness env (drive env k)).getLast? = some Call.logFatal := by
  apply getLast?_readiness
  cases ht : env.targetOk
  · exact Or.inl rfl
  · cases hd : env.dial
    · exact Or.inr (Or.inl rfl)
    · refine Or.inr (Or.inr (getLast?_drive env k (Or.inl ?_)))
      cases hdr : env.driveOk
      · rfl
      · exact absurd ⟨ht, hd, hdr⟩ h

end Pipeline

/-! ## More on the traces -/

namespace Pipeline

theorem navigateGuarded_dockerclient_main (env : Env) :
    navigateGuarded false false (Dockerclient.main env) = true := by
  unfold Dockerclient.main Dockerclient.CreateNewContainer
  cases env.newClient <;> cases env.containerCreate <;> cases env.containerStart
    <;> cases env.containerLogs <;> simp [navigateGuarded, navigateGuarded_readiness]

theorem navigateGuarded_main_main (env : Env) :
    navigateGuarded false false (Main.main env) = true := by
  unfold Main.main Main.CreateNewContainer
  cases env.newClient <;> cases env.containerCreate <;> cases env.containerStart
    <;> cases env.containerLogs <;> simp [navigateGuarded, navigateGuarded_readiness]

/-- The two traces when everything succeeds. -/
theorem main_all_succeed (env : Env) (id : String) (p : Target) (h : env.AllSucceed id p) :
    Dockerclient.main env =
        [Call.newClient true,
          Call.containerCreate "justinribeiro/chrome-headless:latest" "chromium" true,
          Call.containerStart id true, Call.goLogs, Call.sleep 2, Call.devtGet true,
          Call.dial p.webSocketDebuggerURL true, Call.pageEnable true,
          Call.domContentEventFired true, Call.navigate "https://golang.org" true,
          Call.recv true, Call.evaluate "document.header" true,
          Call.captureScreenshot "jpeg" 80 true, Call.writeFile "screenshot.jpg" true,
          Call.containerRemove id true true, Call.eventClose, Call.connClose, Call.cliClose]
      ∧ Main.main env =
        [Call.newClient true,
          Call.containerCreate "justinribeiro/chrome-headless:latest" "chromium" true,
          Call.containerStart id true, Call.containerLogs "chromium" true, Call.goLogs,
          Call.sleep 2, Call.devtGet true, Call.dial p.webSocketDebuggerURL true,
          Call.pageEnable true, Call.domContentEventFired true,
          Call.navigate "https://golang.org" true, Call.recv true,
          Call.evaluate "document.header" true, Call.captureScreenshot "jpeg" 80 true,
          Call.writeFile "screenshot.jpg" true, Call.containerStop id true,
          Call.containerRemove id true true, Call.eventClose, Call.connClose] := by
  obtain ⟨h1, h2, h3, h4, h5, h6, h7, h8, h9, h10, h11, h12, h13, h14, h15⟩ := h
  constructor
  · simp [Dockerclient.main, Dockerclient.CreateNewContainer, readiness, drive,
      h1, h2, h3, h4, h5, h6, h7, h8, h9, h10, h11, h12, h13, h15]
  · simp [Main.main, Main.CreateNewContainer, readiness, drive,
      h1, h2, h3, h4, h5, h6, h7, h8, h9, h10, h11, h12, h13, h14, h15]

theorem allOk_AllSucceed (id : String) (p : Target) : (allOk id p).AllSucceed id p := by
  simp [Env.AllSucceed, allOk]

/-- After the dial there is no call of `Get`, `Create` or `DialContext`. -/
theorem countP_drive_zero (env : Env) (k : List Call) (q : Call → Bool)
    (hq : ∀ x, q x = true → isDriveCall x = false ∧ x ≠ Call.logFatal)
    (hk : ∀ x ∈ k, q x = false) : (drive env k).countP q = 0 := by
  rw [List.countP_eq_zero]
  intro x hx hqx
  rcases mem_drive env k x hx with h | h | h
  · rw [(hq x hqx).1] at h
    exact absurd h (by decide)
  · exact (hq x hqx).2 h
  · rw [hk x h.2] at hqx
    exact absurd hqx (by decide)

theorem isDevtGet_sep (x : Call) (h : isDevtGet x = true) :
    isDriveCall x = false ∧ x ≠ Call.logFatal := by
  cases x <;> simp_all [isDevtGet, isDriveCall, isProtocol]

theorem isDevtCreate_sep (x : Call) (h : isDevtCreate x = true) :
    isDriveCall x = false ∧ x ≠ Call.logFatal := by
  cases x <;> simp_all [isDevtCreate, isDriveCall, isProtocol]

theorem isDial_sep (x : Call) (h : isDial x = true) :
    isDriveCall x = false ∧ x ≠ Call.logFatal := by
  cases x <;> simp_all [isDial, isDriveCall, isProtocol]

/-- The readiness step followed by anything that has no call of `Get`, `Create` or
`DialContext` is as the claim on readiness says. -/
theorem readinessSpec_readiness (env : Env) (pre k : List Call)
    (hpre : ∀ x ∈ pre, isDevtGet x = false ∧ isDevtCreate x = false ∧ isDial x = false)
    (hk : ∀ x ∈ k, isDevtGet x = false ∧ isDevtCreate x = false ∧ isDial x = false) :
    (pre ++ readiness env (drive env k)).countP isDevtGet = 1
      ∧ (∀ p, env.get = .ok p →
          (pre ++ readiness env (drive env k)).countP isDevtCreate = 0 ∧ (pre ++ readiness env (drive env k)).countP isDial = 1
            ∧ Call.dial p.webSocketDebuggerURL env.dial ∈ (pre ++ readiness env (drive env k)))
      ∧ (∀ err, env.get = .error err →
          (pre ++ readiness env (drive env k)).countP isDevtCreate = 1
            ∧ (∀ p, env.create = .ok p →
                (pre ++ readiness env (drive env k)).countP isDial = 1 ∧ Call.dial p.webSocketDebuggerURL env.dial ∈ (pre ++ readiness env (drive env k)))
            ∧ (∀ err2, env.create = .error err2 → (pre ++ readiness env (drive env k)).countP isDial = 0)) := by
  have g0 : pre.countP isDevtGet = 0 :=
    List.countP_eq_zero.mpr (fun x hx => by simp [(hpre x hx).1])
  have c0 : pre.countP isDevtCreate = 0 :=
    List.countP_eq_zero.mpr (fun x hx => by simp [(hpre x hx).2.1])
  have d0 : pre.countP isDial = 0 :=
    List.countP_eq_zero.mpr (fun x hx => by simp [(hpre x hx).2.2])
  have g1 := countP_drive_zero env k isDevtGet isDevtGet_sep (fun x hx => (hk x hx).1)
  have c1 := countP_drive_zero env k isDevtCreate isDevtCreate_sep (fun x hx => (hk x hx).2.1)
  have d1 := countP_drive_zero env k isDial isDial_sep (fun x hx => (hk x hx).2.2)
  unfold readiness
  cases hg : env.get with
  | ok p =>
    cases hd : env.dial <;>
      simp [List.countP_append, List.countP_cons, g0, c0, d0, g1, c1, d1, isDevtGet,
        isDevtCreate, isDial]
  | error er =>
    cases hc : env.create with
    | ok p =>
      cases hd : env.dial <;>
        simp [List.countP_append, List.countP_cons, g0, c0, d0, g1, c1, d1, isDevtGet,
          isDevtCreate, isDial]
    | error er2 =>
      simp [List.countP_append, List.countP_cons, g0, c0, d0, isDevtGet,
        isDevtCreate, isDial]

end Pipeline

/-! ## The claims on `main` -/

namespace Pipeline

/-- C3, as stated, fails: when every step succeeds except the dial, `CreateNewContainer`
has returned the id "c1" in both files, and neither trace has a `ContainerRemove` of it:
the run ends in `log.Fatal` right after the dial. -/
theorem remove_counterexample :
    (Dockerclient.CreateNewContainer dialFails "justinribeiro/chrome-headless:latest").2
        = some "c1"
      ∧ (Main.CreateNewContainer dialFails "justinribeiro/chrome-headless:latest").2
        = some "c1"
      ∧ (∀ ok, Call.containerRemove "c1" true ok ∉ Dockerclient.main dialFails)
      ∧ (∀ ok, Call.containerRemove "c1" true ok ∉ Main.main dialFails)
      ∧ (Dockerclient.main dialFails).getLast? = some Call.logFatal
      ∧ (Main.main dialFails).getLast? = some Call.logFatal := by
  decide

/-- C3, amended: once `CreateNewContainer` has returned a container id, the trace of
`main` contains a force `ContainerRemove` of that id exactly when a target was obtained
(`Get`, or else `Create`) and the dial, `Page.Enable`, the subscription, `Navigate`,
`Recv`, `Evaluate`, `CaptureScreenshot` and the file write all succeeded, and besides, in
`src/dockerclient/main.go`, the goroutine opened the log stream, in `src/main.go`,
`ContainerStop` succeeded; when one of these fails the run ends in `log.Fatal`, with no
`ContainerRemove`. -/
theorem remove_iff_all_succeed (env : Env) (id : String) (hn : env.newClient = true) :
    ((Dockerclient.CreateNewContainer env "justinribeiro/chrome-headless:latest").2 = some id →
        ((∃ ok, Call.containerRemove id true ok ∈ Dockerclient.main env)
            ↔ (env.containerLogs = true
              ∧ (env.targetOk = true ∧ env.dial = true ∧ env.driveOk = true)))
          ∧ (¬(env.containerLogs = true
              ∧ (env.targetOk = true ∧ env.dial = true ∧ env.driveOk = true)) →
            (Dockerclient.main env).getLast? = some Call.logFatal))
      ∧ ((Main.CreateNewContainer env "justinribeiro/chrome-headless:latest").2 = some id →
        ((∃ ok, Call.containerRemove id true ok ∈ Main.main env)
            ↔ ((env.targetOk = true ∧ env.dial = true ∧ env.driveOk = true)
              ∧ env.stop = true))
          ∧ (¬((env.targetOk = true ∧ env.dial = true ∧ env.driveOk = true)
              ∧ env.stop = true) →
            (Main.main env).getLast? = some Call.logFatal)) := by
  constructor
  · intro h
    cases hl : env.containerLogs with
    | false =>
      rw [dockerclient_main_logs_fail env id hn h hl]
      simp
    | true =>
      rw [dockerclient_main_started env id hn h hl]
      refine ⟨⟨?_, ?_⟩, ?_⟩
      · rintro ⟨ok, hm⟩
        rw [List.mem_append] at hm
        rcases hm with hm | hm
        · simp at hm
        · exact ⟨rfl, (mem_readiness_drive_teardown env _ _ hm rfl).1⟩
      · rintro ⟨_, ht, hd, hdr⟩
        obtain ⟨pre, hpre, _⟩ := readiness_drive_ok env (dockerclientFinish env id) ht hd hdr
        refine ⟨env.remove, ?_⟩
        rw [hpre]
        apply List.mem_append_right
        apply List.mem_append_right
        unfold dockerclientFinish
        cases env.remove <;> simp
      · intro hnot
        apply getLast?_append_of_some
        apply getLast?_readiness_drive
        intro hall
        exact hnot ⟨rfl, hall⟩
  · intro h
    rw [main_main_started env id hn h]
    refine ⟨⟨?_, ?_⟩, ?_⟩
    · rintro ⟨ok, hm⟩
      rw [List.mem_append] at hm
      rcases hm with hm | hm
      · simp at hm
      · obtain ⟨hall, hk⟩ := mem_readiness_drive_teardown env _ _ hm rfl
        refine ⟨hall, ?_⟩
        unfold mainFinish at hk
        rcases mem_orFatal _ _ _ _ hk with h1 | h1 | ⟨h1, _⟩
        · simp at h1
        · simp at h1
        · exact h1
    · rintro ⟨⟨ht, hd, hdr⟩, hs⟩
      obtain ⟨pre, hpre, _⟩ := readiness_drive_ok env (mainFinish env id) ht hd hdr
      refine ⟨env.remove, ?_⟩
      rw [hpre]
      apply List.mem_append_right
      apply List.mem_append_right
      unfold mainFinish
      rw [hs]
      cases env.remove <;> simp
    · intro hnot
      apply getLast?_append_of_some
      by_cases hall : env.targetOk = true ∧ env.dial = true ∧ env.driveOk = true
      · obtain ⟨pre, hpre, _⟩ := readiness_drive_ok env (mainFinish env id) hall.1 hall.2.1
          hall.2.2
        rw [hpre]
        apply getLast?_append_of_some
        unfold mainFinish
        apply getLast?_orFatal
        left
        cases hs : env.stop
        · rfl
        · exact absurd ⟨hall, hs⟩ hnot
      · exact getLast?_readiness_drive env _ hall

/-- C3, amended, at the run in which `Get` finds no target and everything else
succeeds, where the container is removed in both files, and at the run in which the
goroutine of `src/dockerclient/main.go` fails to open the log stream, which ends in
`log.Fatal`. -/
theorem remove_iff_all_succeed_witness :
    (∃ ok, Call.containerRemove "c1" true ok ∈ Dockerclient.main getFails)
      ∧ (∃ ok, Call.containerRemove "c1" true ok ∈ Main.main getFails)
      ∧ (Dockerclient.main logsFail).getLast? = some Call.logFatal :=
  ⟨((remove_iff_all_succeed getFails "c1" rfl).1 (by decide)).1.mpr (by decide),
    ((remove_iff_all_succeed getFails "c1" rfl).2 (by decide)).1.mpr (by decide),
    ((remove_iff_all_succeed logsFail "c1" rfl).1 (by decide)).2 (by decide)⟩

end Pipeline

namespace Pipeline

/-- C4: in every run of `main`, in both files, every `Page.Navigate` of the trace comes
after a `Page.Enable` that succeeded and after a subscription to `DOMContentEventFired`
that succeeded; and when everything succeeds the protocol calls are, in this order,
Enable, subscribe, Navigate, Recv, Evaluate, CaptureScreenshot. -/
theorem navigate_after_enable_and_subscribe (env : Env) :
    (∀ pre post url ok, Dockerclient.main env = pre ++ Call.navigate url ok :: post →
        Call.pageEnable true ∈ pre ∧ Call.domContentEventFired true ∈ pre)
      ∧ (∀ pre post url ok, Main.main env = pre ++ Call.navigate url ok :: post →
        Call.pageEnable true ∈ pre ∧ Call.domContentEventFired true ∈ pre)
      ∧ (∀ id p, env.AllSucceed id p →
        (Dockerclient.main env).filter isProtocol
            = [Call.pageEnable true, Call.domContentEventFired true,
              Call.navigate "https://golang.org" true, Call.recv true,
              Call.evaluate "document.header" true, Call.captureScreenshot "jpeg" 80 true]
          ∧ (Main.main env).filter isProtocol
            = [Call.pageEnable true, Call.domContentEventFired true,
              Call.navigate "https://golang.org" true, Call.recv true,
              Call.evaluate "document.header" true, Call.captureScreenshot "jpeg" 80 true]) := by
  refine ⟨?_, ?_, ?_⟩
  · intro pre post url ok h
    have := navigateGuarded_spec _ false false pre post url ok
      (navigateGuarded_dockerclient_main env) h
    simpa using this
  · intro pre post url ok h
    have := navigateGuarded_spec _ false false pre post url ok
      (navigateGuarded_main_main env) h
    simpa using this
  · intro id p h
    obtain ⟨hd, hm⟩ := main_all_succeed env id p h
    rw [hd, hm]
    exact ⟨rfl, rfl⟩

/-- C4 at the run in which everything succeeds. -/
theorem navigate_after_enable_and_subscribe_witness :
    (Call.pageEnable true ∈ (Dockerclient.main (allOk "c1" ⟨"ws://page"⟩)).take 9
        ∧ Call.domContentEventFired true ∈ (Dockerclient.main (allOk "c1" ⟨"ws://page"⟩)).take 9)
      ∧ (Main.main (allOk "c1" ⟨"ws://page"⟩)).filter isProtocol
        = [Call.pageEnable true, Call.domContentEventFired true,
          Call.navigate "https://golang.org" true, Call.recv true,
          Call.evaluate "document.header" true, Call.captureScreenshot "jpeg" 80 true] :=
  ⟨(navigate_after_enable_and_subscribe (allOk "c1" ⟨"ws://page"⟩)).1
      ((Dockerclient.main (allOk "c1" ⟨"ws://page"⟩)).take 9)
      ((Dockerclient.main (allOk "c1" ⟨"ws://page"⟩)).drop 10) "https://golang.org" true
      (by decide),
    ((navigate_after_enable_and_subscribe (allOk "c1" ⟨"ws://page"⟩)).2.2 "c1" ⟨"ws://page"⟩
      (allOk_AllSucceed _ _)).2⟩

/-- C5, as stated, fails: when everything succeeds, `src/main.go` closes the protocol
connection after `ContainerStop` and `ContainerRemove`, not before (the close is
deferred, so it runs when `main` returns), and `src/dockerclient/main.go` never calls
`ContainerStop`. -/
theorem teardown_order_counterexample :
    (Main.main (allOk "c1" ⟨"ws://page"⟩)).indexOf (Call.containerStop "c1" true) = 15
      ∧ (Main.main (allOk "c1" ⟨"ws://page"⟩)).indexOf (Call.containerRemove "c1" true true)
        = 16
      ∧ (Main.main (allOk "c1" ⟨"ws://page"⟩)).indexOf Call.connClose = 18
      ∧ (Main.main (allOk "c1" ⟨"ws://page"⟩)).count Call.connClose = 1
      ∧ (Dockerclient.main (allOk "c1" ⟨"ws://page"⟩)).indexOf
          (Call.containerRemove "c1" true true) = 14
      ∧ (Dockerclient.main (allOk "c1" ⟨"ws://page"⟩)).indexOf Call.connClose = 16
      ∧ (Dockerclient.main (allOk "c1" ⟨"ws://page"⟩)).count Call.connClose = 1
      ∧ ∀ ok, Call.containerStop "c1" ok ∉ Dockerclient.main (allOk "c1" ⟨"ws://page"⟩) := by
  decide

/-- C5, amended: when everything succeeds, the teardown calls of `src/main.go` are, in
this order, `ContainerStop`, `ContainerRemove`, the close of the event client, the close
of the protocol connection; those of `src/dockerclient/main.go` are `ContainerRemove`,
the close of the event client, the close of the protocol connection, the close of the
docker client (the deferred closes run when `main` returns). -/
theorem teardown_order (env : Env) (id : String) (p : Target) (h : env.AllSucceed id p) :
    (Main.main env).filter isTeardown
        = [Call.containerStop id true, Call.containerRemove id true true, Call.eventClose,
          Call.connClose]
      ∧ (Dockerclient.main env).filter isTeardown
        = [Call.containerRemove id true true, Call.eventClose, Call.connClose,
          Call.cliClose] := by
  obtain ⟨hd, hm⟩ := main_all_succeed env id p h
  rw [hd, hm]
  exact ⟨rfl, rfl⟩

/-- C5, amended, at the run in which everything succeeds. -/
theorem teardown_order_witness :
    (Main.main (allOk "c1" ⟨"ws://page"⟩)).filter isTeardown
        = [Call.containerStop "c1" true, Call.containerRemove "c1" true true,
          Call.eventClose, Call.connClose]
      ∧ (Dockerclient.main (allOk "c1" ⟨"ws://page"⟩)).filter isTeardown
        = [Call.containerRemove "c1" true true, Call.eventClose, Call.connClose,
          Call.cliClose] :=
  teardown_order (allOk "c1" ⟨"ws://page"⟩) "c1" ⟨"ws://page"⟩ (allOk_AllSucceed _ _)

/-- C8: in the readiness step of `main`, in both files (the run has reached it:
`CreateNewContainer` has returned and, in `src/dockerclient/main.go`, the goroutine has
opened the log stream), whatever `devt.Get` gives: when it succeeds, `Create` is not
called and the one dial goes to the URL of the target `Get` returned; when it fails,
with any error, `Get` is not called again, `Create` is called exactly once, and the one
dial goes to the URL of the created target; when `Create` fails too, no connection is
dialled. -/
theorem readiness_get_or_create (env : Env) (id : String) (trace : List Call)
    (hn : env.newClient = true)
    (ht : ((Dockerclient.CreateNewContainer env "justinribeiro/chrome-headless:latest").2
          = some id ∧ env.containerLogs = true ∧ trace = Dockerclient.main env)
        ∨ ((Main.CreateNewContainer env "justinribeiro/chrome-headless:latest").2 = some id
          ∧ trace = Main.main env)) :
    trace.countP isDevtGet = 1
      ∧ (∀ p, env.get = .ok p →
          trace.countP isDevtCreate = 0 ∧ trace.countP isDial = 1
            ∧ Call.dial p.webSocketDebuggerURL env.dial ∈ trace)
      ∧ (∀ err, env.get = .error err →
          trace.countP isDevtCreate = 1
            ∧ (∀ p, env.create = .ok p →
                trace.countP isDial = 1 ∧ Call.dial p.webSocketDebuggerURL env.dial ∈ trace)
            ∧ (∀ err2, env.create = .error err2 → trace.countP isDial = 0)) := by
  rcases ht with ⟨h, hl, rfl⟩ | ⟨h, rfl⟩
  · rw [dockerclient_main_started env id hn h hl]
    apply readinessSpec_readiness
    · intro x hx
      simp at hx
      rcases hx with h | h | h | h | h <;> rw [h] <;> exact ⟨rfl, rfl, rfl⟩
    · intro x hx
      unfold dockerclientFinish at hx
      rcases mem_orFatal _ _ _ _ hx with h | h | ⟨_, h⟩
      · rw [h]; exact ⟨rfl, rfl, rfl⟩
      · rw [h]; exact ⟨rfl, rfl, rfl⟩
      · simp at h
        rcases h with h | h | h <;> rw [h] <;> exact ⟨rfl, rfl, rfl⟩
  · rw [main_main_started env id hn h]
    apply readinessSpec_readiness
    · intro x hx
      simp at hx
      rcases hx with h | h | h | h | h | h <;> rw [h] <;> exact ⟨rfl, rfl, rfl⟩
    · intro x hx
      unfold mainFinish at hx
      rcases mem_orFatal _ _ _ _ hx with h | h | ⟨_, hx⟩
      · rw [h]; exact ⟨rfl, rfl, rfl⟩
      · rw [h]; exact ⟨rfl, rfl, rfl⟩
      · rcases mem_orFatal _ _ _ _ hx with h | h | ⟨_, h⟩
        · rw [h]; exact ⟨rfl, rfl, rfl⟩
        · rw [h]; exact ⟨rfl, rfl, rfl⟩
        · simp at h
          rcases h with h | h <;> rw [h] <;> exact ⟨rfl, rfl, rfl⟩

/-- C8 at the run of `src/dockerclient/main.go` in which `Get` finds no target and
`Create` succeeds. -/
theorem readiness_get_or_create_witness :
    (Dockerclient.main getFails).countP isDevtGet = 1
      ∧ (Dockerclient.main getFails).countP isDevtCreate = 1
      ∧ (Dockerclient.main getFails).countP isDial = 1
      ∧ Call.dial "ws://new" true ∈ Dockerclient.main getFails :=
  have h := readiness_get_or_create getFails "c1" (Dockerclient.main getFails) rfl
    (Or.inl ⟨by decide, rfl, rfl⟩)
  ⟨h.1, (h.2.2 DevtError.noTarget rfl).1,
    ((h.2.2 DevtError.noTarget rfl).2.1 ⟨"ws://new"⟩ rfl).1,
    ((h.2.2 DevtError.noTarget rfl).2.1 ⟨"ws://new"⟩ rfl).2⟩

end Pipeline
